import Mathlib

/-!
Verification of the VEM (virtual element method) assembly core of
`opm/geomech/vem/vem.cpp` (OPM flow-geomechanics).

The C++ source is shallowly embedded over `ℚ`.  Floating-point `double`
arithmetic is idealised as exact rational arithmetic; the two calls into
`std::sqrt` / `std::cbrt` (which are the only non-rational operations in the
file) are abstracted as explicit function parameters `sqrt : ℚ → ℚ` and
`cbrt : ℚ → ℚ` that are threaded through the embedding exactly at the places
where the C++ calls them.  Raw pointers into coordinate buffers become
`List ℚ` values (pointer offset `p + k` becomes `l.drop k`, reads become
`List.getD` with default `0`); `int` index buffers become `List ℕ`.
`std::vector<std::tuple<int,int,double>>` (triplet/COO sparse matrices)
become `List (ℕ × ℕ × ℚ)`.  C++ `throw` is modelled with `Except`;
a failed `assert` is modelled as a distinguished error value.
`std::sort` with the column comparator is realised by a stable insertion
sort, which is one of the permutations `std::sort` is allowed to produce.
-/

namespace vem

/-! ## Basic list access and arithmetic helpers -/

/-- Read a rational buffer at an index (out-of-range reads give `0`). -/
def gq (l : List ℚ) (i : ℕ) : ℚ := l.getD i 0

/-- Read an integer buffer at an index (out-of-range reads give `0`). -/
def gn (l : List ℕ) (i : ℕ) : ℕ := l.getD i 0

/-- `rsum n f = f 0 + ... + f (n-1)`; embeds the C++ accumulation loops. -/
def rsum (n : ℕ) (f : ℕ → ℚ) : ℚ := ((List.range n).map f).sum

/-- Sum of the first `n` entries of an integer buffer; embeds
`std::accumulate(p, p + n, 0)` on `int` data. -/
def isum (l : List ℕ) (n : ℕ) : ℕ := ((l.take n).map (fun x => x)).sum

/-- `target[i] += v` on a rational buffer (no-op out of range, as `List.set`). -/
def addAt (l : List ℚ) (i : ℕ) (v : ℚ) : List ℚ := l.set i (l.getD i 0 + v)

/-- Helper for `isqrt`: largest `k ≤ m` with `k*k ≤ n` (0 if none). -/
def isqrt_go (n : ℕ) : ℕ → ℕ
| 0 => 0
| (k+1) => if (k+1)*(k+1) ≤ n then k+1 else isqrt_go n k

/-- Integer square root (floor); embeds `std::size_t(std::sqrt(N))` as used on
perfect-square container sizes in `trace` and `diag_elems`. -/
def isqrt (n : ℕ) : ℕ := isqrt_go n n

/-- The tolerance `1e-13` used by the star-point geometry predicates. -/
def tol : ℚ := 1 / 10 ^ 13

/-! ## Point arithmetic (`plc`, `pointsum`, `pointdiff`, `pointmean`, `norm`) -/

/-- Linear combination of two `Dim`-points (C++ `plc`). -/
def plc (dim : ℕ) (p1 p2 : List ℚ) (fac1 fac2 : ℚ) : List ℚ :=
  (List.range dim).map (fun d => gq p1 d * fac1 + gq p2 d * fac2)

/-- Sum of two points (C++ `pointsum`). -/
def pointsum (dim : ℕ) (p1 p2 : List ℚ) : List ℚ := plc dim p1 p2 1 1

/-- Difference of two points (C++ `pointdiff`). -/
def pointdiff (dim : ℕ) (p1 p2 : List ℚ) : List ℚ := plc dim p1 p2 1 (-1)

/-- Mean of two points (C++ `pointmean`). -/
def pointmean (dim : ℕ) (p1 p2 : List ℚ) : List ℚ := plc dim p1 p2 (1/2) (1/2)

/-- L2 norm of a `Dim`-vector (C++ `norm`); `sqrt` is the abstracted
`std::sqrt`. -/
def norm (dim : ℕ) (sqrt : ℚ → ℚ) (v : List ℚ) : ℚ :=
  sqrt (rsum dim (fun i => gq v i * gq v i))

/-- 3x3 determinant from three row (or column) pointers (C++ `determinant3D`). -/
def determinant3D (c1 c2 c3 : List ℚ) : ℚ :=
  gq c1 0 * (gq c2 1 * gq c3 2 - gq c2 2 * gq c3 1)
    - gq c1 1 * (gq c2 0 * gq c3 2 - gq c2 2 * gq c3 0)
    + gq c1 2 * (gq c2 0 * gq c3 1 - gq c2 1 * gq c3 0)

/-- Coordinate mean of `num_corners` points stored consecutively
(C++ `point_average`). -/
def point_average (dim : ℕ) (corners : List ℚ) (num_corners : ℕ) : List ℚ :=
  (List.range dim).map (fun d =>
    rsum num_corners (fun i => gq corners (dim * i + d)) / (num_corners : ℚ))

/-- Gather selected points consecutively (C++ `pick_points`). -/
def pick_points (dim : ℕ) (pts : List ℚ) (p_ixs : List ℕ) (num_points : ℕ) :
    List ℚ :=
  (List.range num_points).flatMap (fun i =>
    (List.range dim).map (fun d => gq pts (gn p_ixs i * dim + d)))

/-- Unsigned triangle area by Heron's formula (C++ `triarea`). -/
def triarea (dim : ℕ) (sqrt : ℚ → ℚ) (c1 c2 c3 : List ℚ) : ℚ :=
  let l1 := norm dim sqrt (pointdiff dim c2 c1)
  let l2 := norm dim sqrt (pointdiff dim c3 c2)
  let l3 := norm dim sqrt (pointdiff dim c1 c3)
  let s := (1/2) * (l1 + l2 + l3)
  sqrt (s * (s - l1) * (s - l2) * (s - l3))

/-- Area-scaled triangle normal in 3D, i.e. the cross product of two edge
vectors (C++ `trinormal`). -/
def trinormal (c1 c2 c3 : List ℚ) : List ℚ :=
  let v1 := [gq c2 0 - gq c1 0, gq c2 1 - gq c1 1, gq c2 2 - gq c1 2]
  let v2 := [gq c3 0 - gq c1 0, gq c3 1 - gq c1 1, gq c3 2 - gq c1 2]
  [gq v1 1 * gq v2 2 - gq v1 2 * gq v2 1,
   gq v1 2 * gq v2 0 - gq v1 0 * gq v2 2,
   gq v1 0 * gq v2 1 - gq v1 1 * gq v2 0]

/-! ## Centroids and tessellation -/

/-- Shoelace centroid of a 2D polygon (C++ `vem::centroid_2D`). -/
def centroid_2D (points : List ℚ) (num_points : ℕ) : List ℚ :=
  let fac := fun i =>
    let inext := (i + 1) % num_points
    gq points (2*i) * gq points (2*inext + 1)
      - gq points (2*inext) * gq points (2*i + 1)
  let area := rsum num_points (fun i => (1/2) * fac i)
  (List.range 2).map (fun d =>
    rsum num_points (fun i =>
      (gq points (2*i + d) + gq points ((2 * ((i+1) % num_points)) + d)) * fac i)
      / (6 * area))

/-- Centroid of a planar polygon embedded in 3D (C++ `vem::centroid_2D_3D`). -/
def centroid_2D_3D (sqrt : ℚ → ℚ) (points : List ℚ) (num_points : ℕ) :
    List ℚ :=
  let inside_point := point_average 3 points num_points
  let tri_area := fun i =>
    triarea 3 sqrt (points.drop (3*i)) (points.drop (3 * ((i+1) % num_points)))
      inside_point
  let area := rsum num_points tri_area
  (List.range 3).map (fun d =>
    rsum num_points (fun i =>
      tri_area i * (gq points (3*i + d) + gq points (3 * ((i+1) % num_points) + d)
        + gq inside_point d) / 3) / area)

/-- Dimension dispatch for face centroids (C++ `face_centroid<Dim>`). -/
def face_centroid (dim : ℕ) (sqrt : ℚ → ℚ) (points : List ℚ) (num_points : ℕ) :
    List ℚ :=
  if dim = 2 then centroid_2D points num_points
  else centroid_2D_3D sqrt points num_points

/-- Tessellate a polygonal face into `2N` triangles fanned from its centroid
(C++ `tessellate_face`); each triangle is `3*dim` consecutive coordinates. -/
def tessellate_face (dim : ℕ) (sqrt : ℚ → ℚ) (corners : List ℚ)
    (num_corners : ℕ) (skip_if_tri : Bool) : List (List ℚ) :=
  if skip_if_tri ∧ num_corners = 3 then [corners.take (dim * 3)]
  else
    let center := face_centroid dim sqrt corners num_corners
    (List.range num_corners).flatMap (fun c =>
      let cnext := (c + 1) % num_corners
      let midpt := pointmean dim (corners.drop (dim*c)) (corners.drop (dim*cnext))
      [center ++ (corners.drop (dim*c)).take dim ++ midpt,
       center ++ midpt ++ (corners.drop (dim*cnext)).take dim])

/-- Integrate per-corner values over a face via the tessellation
(C++ `face_integral_impl`); `corner_values = none` embeds the null pointer
(all values 1). -/
def face_integral_impl (dim : ℕ) (sqrt : ℚ → ℚ) (corners : List ℚ)
    (num_corners : ℕ) (corner_values : Option (List ℚ)) : ℚ :=
  let tris := tessellate_face dim sqrt corners num_corners false
  rsum num_corners (fun i =>
    let t1 := tris.getD (2*i) []
    let t2 := tris.getD (2*i + 1) []
    let inext := (i + 1) % num_corners
    let fval1 := match corner_values with | none => 1 | some v => gq v i
    let fval2 := match corner_values with | none => 1 | some v => gq v inext
    triarea dim sqrt t1 (t1.drop dim) (t1.drop (2*dim)) * fval1
      + triarea dim sqrt t2 (t2.drop dim) (t2.drop (2*dim)) * fval2)

/-- Public face-integral entry point (C++ `vem::face_integral`). -/
def face_integral (sqrt : ℚ → ℚ) (corners : List ℚ) (num_corners : ℕ)
    (dim : ℕ) (corner_values : Option (List ℚ)) : ℚ :=
  if dim = 2 then face_integral_impl 2 sqrt corners num_corners corner_values
  else face_integral_impl 3 sqrt corners num_corners corner_values

/-- 2D element area (C++ `element_volume_2D`). -/
def element_volume_2D (sqrt : ℚ → ℚ) (corners : List ℚ) (num_faces : ℕ) : ℚ :=
  face_integral sqrt corners num_faces 2 none

/-- Unsigned tetrahedron volume (C++ `vem::tetrahedron_volume`). -/
def tetrahedron_volume (p1 p2 p3 p4 : List ℚ) : ℚ :=
  let v1 := pointdiff 3 p1 p4
  let v2 := pointdiff 3 p2 p4
  let v3 := pointdiff 3 p3 p4
  |determinant3D v1 v2 v3| / 6

/-! ## Generic dense linear algebra on flat row-major buffers -/

/-- Generic matrix multiply with transposition flags, strides and a scaling
factor, on flat row-major buffers (C++ `matmul`).  The C++ dimension
compatibility check (`throw std::invalid_argument`) is never triggered by any
call site modelled here; all embedded call sites pass compatible dimensions. -/
def matmul (d1 : List ℚ) (r1 c1 : ℕ) (t1 : Bool) (d2 : List ℚ) (r2 c2 : ℕ)
    (t2 : Bool) (fac : ℚ) : List ℚ :=
  let dim1 : ℕ × ℕ := if t1 then (c1, r1) else (r1, c1)
  let dim2 : ℕ × ℕ := if t2 then (c2, r2) else (r2, c2)
  let st1 : ℕ × ℕ := if t1 then (1, c1) else (c1, 1)
  let st2 : ℕ × ℕ := if t2 then (1, c2) else (c2, 1)
  (List.range dim1.1).flatMap (fun r =>
    (List.range dim2.2).map (fun c =>
      fac * rsum dim1.2 (fun k =>
        gq d1 (r * st1.1 + k * st1.2) * gq d2 (k * st2.1 + c * st2.2))))

/-- Trace of a square matrix stored flat, with the side length recovered from
the buffer size (C++ `trace`). -/
def trace (A : List ℚ) : ℚ :=
  let N := isqrt A.length
  rsum N (fun i => gq A (i + N * i))

/-- Diagonal of a square matrix stored flat (C++ `diag_elems`). -/
def diag_elems (A : List ℚ) : List ℚ :=
  let N := isqrt A.length
  (List.range N).map (fun i => gq A (i * N + i))

/-- Sum of reciprocals of the diagonal entries; approximates trace of the
inverse for diagonal matrices (C++ `invtrace`). -/
def invtrace (A : List ℚ) : ℚ :=
  let diag := diag_elems A
  rsum diag.length (fun i => 1 / gq diag i)

/-- `fac` times the identity matrix, stored flat (C++ `identity_matrix`). -/
def identity_matrix (fac : ℚ) (N : ℕ) : List ℚ :=
  (List.range N).foldl (fun l i => l.set (i + N * i) fac)
    (List.replicate (N * N) 0)

/-! ## Stability term and final element assembly -/

/-- The stability-formula selector (C++ `vem::StabilityChoice`). -/
inductive StabilityChoice where
| SIMPLE : StabilityChoice
| HARMONIC : StabilityChoice
| D_RECIPE : StabilityChoice
deriving DecidableEq

/-- SIMPLE/HARMONIC stability term: a scalar multiple of the identity
(C++ `compute_S`). -/
def compute_S (Nc D : List ℚ) (num_corners : ℕ) (volume : ℚ) (dim : ℕ)
    (stability_choice : StabilityChoice) : List ℚ :=
  let r := dim * num_corners
  let c := if dim = 2 then 3 else 6
  let NtN := matmul Nc r c true Nc r c false 1
  let alpha :=
    if stability_choice = StabilityChoice.SIMPLE then
      volume * trace D / trace NtN
    else (1/9) * volume * trace D * invtrace NtN
  identity_matrix alpha (dim * num_corners)

/-- D_RECIPE stability term: diagonal, each entry the max of the cell-diameter
estimate `cbrt volume` and the consistent-block diagonal
(C++ `compute_S_D_recipe`). -/
def compute_S_D_recipe (cbrt : ℚ → ℚ) (EWcDWct : List ℚ) (dofs : ℕ)
    (volume : ℚ) : List ℚ :=
  let h := cbrt volume
  (List.range dofs).foldl (fun l i => l.set (i + dofs * i) (max h (gq EWcDWct (i + dofs * i))))
    (List.replicate (dofs * dofs) 0)

/-- Assemble the local VEM stiffness matrix from the intermediary matrices
(C++ `final_assembly`): consistent part `volume * Wc * D * Wcᵀ` plus
stability part `(I-P)ᵀ * S * (I-P)`, summed element-wise. -/
def final_assembly (cbrt : ℚ → ℚ) (Wc D Nc ImP : List ℚ)
    (stability_choice : StabilityChoice) (volume : ℚ) (num_nodes dim : ℕ) :
    List ℚ :=
  let lsdim := if dim = 2 then 3 else 6
  let totdim := dim * num_nodes
  let DWct := matmul D lsdim lsdim false Wc totdim lsdim true 1
  let EWcDWct := matmul Wc totdim lsdim false DWct lsdim totdim false volume
  let S :=
    if stability_choice = StabilityChoice.D_RECIPE then
      compute_S_D_recipe cbrt EWcDWct totdim volume
    else compute_S Nc D num_nodes volume dim stability_choice
  let SImP := matmul S totdim totdim false ImP totdim totdim false 1
  let ImpSImp := matmul ImP totdim totdim true SImP totdim totdim false 1
  List.zipWith (· + ·) EWcDWct ImpSImp

/-! ## VEM basis matrices -/

/-- Per-node 2x3 building block of `Nr/Nc/Wr/Wc` in 2D (C++ `matentry_2D`). -/
def matentry_2D (e1 e2 e3 e4 : ℚ) : List ℚ := [e1, 0, e2, 0, e3, e4]

/-- Per-node 3x6 building block of `Nr/Nc/Wr/Wc` in 3D (C++ `matentry_3D`). -/
def matentry_3D (e1 e2 e3 e4 e5 e6 e7 e8 e9 : ℚ) : List ℚ :=
  [e1, 0, 0, e2, 0, e3, 0, e4, 0, e5, e6, 0, 0, 0, e7, 0, e8, e9]

/-- 2D q-vector of nodal basis-function edge integrals scaled by
`1/(4*Area)` (C++ `compute_q_2D`). -/
def compute_q_2D (sqrt : ℚ → ℚ) (corners : List ℚ) (num_corners : ℕ) :
    List ℚ :=
  let fac := 1 / (4 * element_volume_2D sqrt corners num_corners)
  (List.range num_corners).foldl (fun res i =>
    let inext := (i + 1) % num_corners
    let sn0 := gq corners (2*inext + 1) - gq corners (2*i + 1)
    let sn1 := -(gq corners (2*inext) - gq corners (2*i))
    addAt (addAt (addAt (addAt res (i*2) (fac * sn0)) (inext*2) (fac * sn0))
        (i*2 + 1) (fac * sn1)) (inext*2 + 1) (fac * sn1))
    (List.replicate (num_corners * 2) 0)

/-- 3D q-vector of nodal basis-function face integrals scaled by the outward
normals and `1/(2*Volume)` (C++ `compute_q_3D`).  Index `isum num_face_edges f
+ e` plays the role of the running `cur_vertex_ix`. -/
def compute_q_3D (sqrt : ℚ → ℚ) (corners : List ℚ) (num_corners : ℕ)
    (faces : List ℕ) (num_face_edges : List ℕ) (num_faces : ℕ) (volume : ℚ)
    (outward_normals : List ℚ) : List ℚ :=
  let fac := 1 / (2 * volume)
  (List.range num_faces).foldl (fun res f =>
    let nfe := gn num_face_edges f
    let facecorners := pick_points 3 corners (faces.drop (isum num_face_edges f)) nfe
    let normal := outward_normals.drop (3*f)
    (List.range nfe).foldl (fun res2 e =>
      let cvals := (List.range nfe).map (fun k => if k = e then (1:ℚ) else 0)
      let phi := face_integral sqrt facecorners nfe 3 (some cvals)
      (List.range 3).foldl (fun res3 d =>
        addAt res3 (3 * gn faces (isum num_face_edges f + e) + d)
          (fac * phi * gq normal d)) res2) res)
    (List.replicate (num_corners * 3) 0)

/-- 2D rigid-body mode matrix (C++ `compute_Nr_2D`). -/
def compute_Nr_2D (corners : List ℚ) (num_corners : ℕ) : List ℚ :=
  let midpoint := point_average 2 corners num_corners
  (List.range num_corners).flatMap (fun i =>
    matentry_2D 1 (gq corners (2*i + 1) - gq midpoint 1) 1
      (-(gq corners (2*i) - gq midpoint 0)))

/-- 3D rigid-body mode matrix (C++ `compute_Nr_3D`). -/
def compute_Nr_3D (corners : List ℚ) (num_corners : ℕ) : List ℚ :=
  let midpoint := point_average 3 corners num_corners
  (List.range num_corners).flatMap (fun i =>
    matentry_3D 1 (gq corners (3*i + 1) - gq midpoint 1)
      (-(gq corners (3*i + 2) - gq midpoint 2)) 1
      (-(gq corners (3*i) - gq midpoint 0))
      (gq corners (3*i + 2) - gq midpoint 2) 1
      (-(gq corners (3*i + 1) - gq midpoint 1))
      (gq corners (3*i) - gq midpoint 0))

/-- 3D constant-strain mode matrix (C++ `compute_Nc_3D`). -/
def compute_Nc_3D (corners : List ℚ) (num_corners : ℕ) : List ℚ :=
  let mid := point_average 3 corners num_corners
  (List.range num_corners).flatMap (fun i =>
    matentry_3D (gq corners (3*i) - gq mid 0) (gq corners (3*i + 1) - gq mid 1)
      (gq corners (3*i + 2) - gq mid 2) (gq corners (3*i + 1) - gq mid 1)
      (gq corners (3*i) - gq mid 0) (gq corners (3*i + 2) - gq mid 2)
      (gq corners (3*i + 2) - gq mid 2) (gq corners (3*i + 1) - gq mid 1)
      (gq corners (3*i) - gq mid 0))

/-- 2D constant-strain mode matrix (C++ `compute_Nc_2D`). -/
def compute_Nc_2D (corners : List ℚ) (num_corners : ℕ) : List ℚ :=
  let midpoint := point_average 2 corners num_corners
  (List.range num_corners).flatMap (fun i =>
    matentry_2D (gq corners (2*i) - gq midpoint 0)
      (gq corners (2*i + 1) - gq midpoint 1)
      (gq corners (2*i + 1) - gq midpoint 1)
      (gq corners (2*i) - gq midpoint 0))

/-- 3D dual rigid-mode matrix built from `q` (C++ `compute_Wr_3D`). -/
def compute_Wr_3D (q : List ℚ) : List ℚ :=
  let num_corners := q.length / 3
  let ncinv := 1 / (num_corners : ℚ)
  (List.range num_corners).flatMap (fun i =>
    matentry_3D ncinv (gq q (3*i + 1)) (-(gq q (3*i + 2))) ncinv (-(gq q (3*i)))
      (gq q (3*i + 2)) ncinv (-(gq q (3*i + 1))) (gq q (3*i)))

/-- 2D dual rigid-mode matrix built from `q` (C++ `compute_Wr_2D`). -/
def compute_Wr_2D (q : List ℚ) : List ℚ :=
  let num_corners := q.length / 2
  (List.range num_corners).flatMap (fun i =>
    matentry_2D (1 / (num_corners : ℚ)) (gq q (2*i + 1)) (1 / (num_corners : ℚ))
      (-(gq q (2*i))))

/-- 3D dual constant-strain matrix built from `q`, with doubled
normal-direction entries (C++ `compute_Wc_3D`). -/
def compute_Wc_3D (q : List ℚ) : List ℚ :=
  let num_corners := q.length / 3
  (List.range num_corners).flatMap (fun i =>
    matentry_3D (2 * gq q (3*i)) (gq q (3*i + 1)) (gq q (3*i + 2))
      (2 * gq q (3*i + 1)) (gq q (3*i)) (gq q (3*i + 2))
      (2 * gq q (3*i + 2)) (gq q (3*i + 1)) (gq q (3*i)))

/-- 2D dual constant-strain matrix built from `q` (C++ `compute_Wc_2D`). -/
def compute_Wc_2D (q : List ℚ) : List ℚ :=
  let num_corners := q.length / 2
  (List.range num_corners).flatMap (fun i =>
    matentry_2D (2 * gq q (2*i)) (gq q (2*i + 1)) (2 * gq q (2*i + 1))
      (gq q (2*i)))

/-- 2D isotropic elasticity matrix in Voigt notation with doubled shear
entry (C++ `compute_D_2D`). -/
def compute_D_2D (young poisson : ℚ) : List ℚ :=
  let fac := young / (1 + poisson) / (1 - 2 * poisson)
  [1 - poisson, poisson, 0, poisson, 1 - poisson, 0, 0, 0,
   2 * (1 - 2 * poisson)].map (fun d => d * fac)

/-- 3D isotropic elasticity matrix in Voigt notation with doubled shear
entries (C++ `compute_D_3D`). -/
def compute_D_3D (young poisson : ℚ) : List ℚ :=
  let fac := young / (1 + poisson) / (1 - 2 * poisson)
  [1 - poisson, poisson, poisson, 0, 0, 0,
   poisson, 1 - poisson, poisson, 0, 0, 0,
   poisson, poisson, 1 - poisson, 0, 0, 0,
   0, 0, 0, 2 * (1 - 2 * poisson), 0, 0,
   0, 0, 0, 0, 2 * (1 - 2 * poisson), 0,
   0, 0, 0, 0, 0, 2 * (1 - 2 * poisson)].map (fun d => d * fac)

/-- The complement `I - P` of the projector `P = Nr*Wrᵀ + Nc*Wcᵀ`
(C++ `compute_ImP`). -/
def compute_ImP (Nr Nc Wr Wc : List ℚ) (dim : ℕ) : List ℚ :=
  let N := if dim = 2 then Nc.length / 6 else Nc.length / 18
  let r := dim * N
  let c := if dim = 2 then 3 else 6
  let Pr := matmul Nr r c false Wr r c true 1
  let Pc := matmul Nc r c false Wc r c true 1
  let idl := identity_matrix 1 (N * dim)
  (List.range ((N*dim) * (N*dim))).map (fun i => gq idl i - (gq Pr i + gq Pc i))

/-! ## Star-point search and cell geometry engine -/

/-- Error values for the C++ exceptional paths: `std::invalid_argument`,
`std::runtime_error`, and a failed `assert`. -/
inductive VemError where
| invalidArgument : VemError
| runtimeError : VemError
| assertionFailure : VemError
deriving DecidableEq

/-- Whether a point lies behind a face plane, within tolerance `1e-13`
(C++ `is_behind_face`). -/
def is_behind_face (point face_normal fc : List ℚ) : Bool :=
  decide (((gq fc 0 - gq point 0) * gq face_normal 0
    + (gq fc 1 - gq point 1) * gq face_normal 1
    + (gq fc 2 - gq point 2) * gq face_normal 2) + tol > 0)

/-- Whether a point is behind every face (C++ `is_star_point`). -/
def is_star_point (point : List ℚ) (face_normals face_centroids : List ℚ) :
    Bool :=
  (List.range (face_normals.length / 3)).all (fun i =>
    is_behind_face point (face_normals.drop (3*i)) (face_centroids.drop (3*i)))

/-- The body of one iteration of the C++ `identify_star_point` loop: the
behind-check against face `i % N` and, on violation, the `1.1x` projection
past the face plane.  Returns the updated point and the behind flag. -/
def star_step (ns cs : List ℚ) (N : ℕ) (pt : List ℚ) (i : ℕ) :
    List ℚ × Bool :=
  let fix := i % N
  let normal := ns.drop (3*fix)
  let fc := cs.drop (3*fix)
  let behind := is_behind_face pt normal fc
  (if behind then pt
   else
     let proj := (gq pt 0 - gq fc 0) * gq normal 0
       + (gq pt 1 - gq fc 1) * gq normal 1
       + (gq pt 2 - gq fc 2) * gq normal 2
     (List.range 3).map (fun ii => gq pt ii - (11/10) * proj * gq normal ii),
   behind)

/-- The C++ `identify_star_point` loop, driven by the remaining iteration
budget (first argument).  State: current candidate point, the
consecutive-behind counter `count`, and the iteration index `i`.  Returns the
final point, counter, and the number of iterations executed. -/
def star_go (ns cs : List ℚ) (N : ℕ) : ℕ → List ℚ → ℕ → ℕ → List ℚ × ℕ × ℕ
| 0, pt, count, i => (pt, count, i)
| (fuel+1), pt, count, i =>
  let s := star_step ns cs N pt i
  let count2 := (if s.2 then count else 0) + 1
  if count2 = N then (s.1, count2, i + 1)
  else star_go ns cs N fuel s.1 count2 (i + 1)

/-- Iterative star-point search with budget `20 * N`; throws
`std::runtime_error` when the budget is exhausted before `count` reaches `N`
(C++ `identify_star_point`). -/
def identify_star_point (point : List ℚ) (face_normals face_centroids : List ℚ) :
    Except VemError (List ℚ) :=
  let N := face_normals.length / 3
  let R := star_go face_normals face_centroids N (20 * N) point 0 0
  if R.2.1 = N then Except.ok R.1 else Except.error VemError.runtimeError

/-- Per-face geometry: area-weighted (normalized) normal and centroid
(C++ `compute_face_geometry`). -/
def compute_face_geometry (sqrt : ℚ → ℚ) (points : List ℚ) :
    List ℚ × List ℚ :=
  let n := points.length / 3
  let centroid := face_centroid 3 sqrt points n
  let tess := tessellate_face 3 sqrt points n false
  let nsum := tess.foldl (fun acc tri =>
    pointsum 3 acc (trinormal tri (tri.drop 3) (tri.drop 6))) [0, 0, 0]
  let nn := norm 3 sqrt nsum
  ((List.range 3).map (fun d => gq nsum d / nn), centroid)

/-- Copy of the locally relevant face-corner indices
(C++ `extract_local_faces`). -/
def extract_local_faces (faces : List ℕ) (num_face_edges : List ℕ)
    (num_faces : ℕ) : List ℕ :=
  faces.take (isum num_face_edges num_faces)

/-- Global orientation check: the summed scalar products of
(face centroid - centroid average) with the face normals is negative
(C++ `inward_pointing_normals`). -/
def inward_pointing_normals (normals face_centroids : List ℚ) : Bool :=
  let N := normals.length / 3
  let mean_point := point_average 3 face_centroids N
  decide (rsum N (fun i => rsum 3 (fun d =>
    (gq face_centroids (3*i + d) - gq mean_point d) * gq normals (3*i + d))) < 0)

/-- Results of the cell geometry engine (the C++ output parameters of
`compute_cell_geometry`). -/
structure CellGeom where
  outward_normals : List ℚ
  face_centroids : List ℚ
  cell_centroid : List ℚ
  star_point : List ℚ
  volume : ℚ
deriving DecidableEq

/-- Face normals and face centroids of all faces of a cell: the first stage of
`compute_cell_geometry` (the per-face loop calling `compute_face_geometry`). -/
def cell_face_geometry (sqrt : ℚ → ℚ) (points : List ℚ) (faces : List ℕ)
    (num_face_edges : List ℕ) (num_faces : ℕ) : List ℚ × List ℚ :=
  let faces2 := extract_local_faces faces num_face_edges num_faces
  (List.range num_faces).foldl (fun acc f =>
    let fg := compute_face_geometry sqrt
      (pick_points 3 points (faces2.drop (isum num_face_edges f)) (gn num_face_edges f))
    (acc.1 ++ fg.1, acc.2 ++ fg.2)) ([], [])

/-- Cell geometry engine (C++ `compute_cell_geometry`): face normals and
centroids, the orientation assertion, the star-point search, and the
volume/centroid accumulation over the tetrahedral decomposition. -/
def compute_cell_geometry (sqrt : ℚ → ℚ) (points : List ℚ) (num_points : ℕ)
    (faces : List ℕ) (num_face_edges : List ℕ) (num_faces : ℕ) :
    Except VemError CellGeom :=
  let nscs := cell_face_geometry sqrt points faces num_face_edges num_faces
  let outward_normals := nscs.1
  let face_centroids := nscs.2
  if inward_pointing_normals outward_normals face_centroids then
    Except.error VemError.assertionFailure
  else
    (identify_star_point (point_average 3 points num_points) outward_normals
        face_centroids).bind (fun star_point =>
      let acc := (List.range num_faces).foldl (fun (acc : ℚ × List ℚ) f =>
        (tessellate_face 3 sqrt
            (pick_points 3 points (faces.drop (isum num_face_edges f))
              (gn num_face_edges f)) (gn num_face_edges f) true).foldl
          (fun acc2 tri =>
            let tri4 := tri ++ star_point
            let tvol := tetrahedron_volume tri4 (tri4.drop 3) (tri4.drop 6)
              (tri4.drop 9)
            let tcent := point_average 3 tri4 4
            (acc2.1 + tvol,
             (List.range 3).map (fun d => gq acc2.2 d + tvol * gq tcent d))) acc)
        (0, [0, 0, 0])
      let volume := acc.1
      let cell_centroid := (List.range 3).map (fun d => gq acc.2 d / volume)
      let star_point' :=
        if is_star_point cell_centroid outward_normals face_centroids then
          cell_centroid
        else star_point
      Except.ok ⟨outward_normals, face_centroids, cell_centroid, star_point',
        volume⟩)

/-! ## Load distribution -/

/-- Distribute a 2D body force over the nodes of a 2D element proportionally
to the tessellation triangle areas (C++ `compute_bodyforce_2D`); `target` is
the caller-supplied output buffer. -/
def compute_bodyforce_2D (sqrt : ℚ → ℚ) (points : List ℚ)
    (cell_corners : List ℕ) (number_cell_faces : ℕ) (bforce : List ℚ)
    (target : List ℚ) : List ℚ :=
  let coords := pick_points 2 points cell_corners number_cell_faces
  let tris := tessellate_face 2 sqrt coords number_cell_faces false
  (List.range (2 * number_cell_faces)).foldl (fun t c =>
    let tri := tris.getD c []
    (List.range 2).foldl (fun t2 d =>
      addAt t2 (2 * ((c / 2 + c % 2) % number_cell_faces) + d)
        (gq bforce d * triarea 2 sqrt tri (tri.drop 2) (tri.drop 4))) t) target

/-- Distribute a 2D edge force over its two end nodes
(C++ `compute_applied_forces_2D`). -/
def compute_applied_forces_2D (sqrt : ℚ → ℚ) (points : List ℚ) (n1 n2 : ℕ)
    (fx fy : ℚ) : List ℚ :=
  let hL := norm 2 sqrt (pointdiff 2 (points.drop (2*n1)) (points.drop (2*n2))) / 2
  [hL * fx, hL * fy, hL * fx, hL * fy]

/-- Distribute 3D Neumann face forces over the face corner nodes, written
into the global right-hand side (C++ `compute_applied_forces_3D`). -/
def compute_applied_forces_3D (sqrt : ℚ → ℚ) (points : List ℚ)
    (num_face_corners face_corners : List ℕ) (num_neumann_faces : ℕ)
    (neumann_faces : List ℕ) (neumann_forces : List ℚ) (b_global : List ℚ) :
    List ℚ :=
  (List.range num_neumann_faces).foldl (fun b nf =>
    let face := gn neumann_faces nf
    let nfc := gn num_face_corners face
    let ix_start := isum num_face_corners face
    let face_corners_loc := pick_points 3 points (face_corners.drop ix_start) nfc
    let tris := tessellate_face 3 sqrt face_corners_loc nfc false
    (List.range (2 * nfc)).foldl (fun b2 c =>
      let tri := tris.getD c []
      let area := triarea 3 sqrt tri (tri.drop 3) (tri.drop 6)
      let corner := (c / 2 + c % 2) % nfc
      (List.range 3).foldl (fun b3 d =>
        addAt b3 (3 * gn face_corners (ix_start + corner) + d)
          (gq neumann_forces (3*nf + d) * area)) b2) b) b_global

/-- Distribute a 3D body force over the corner nodes of a 3D element
proportionally to the tributary tetrahedron volumes, written into the global
right-hand side (C++ `compute_bodyforce_3D`). -/
def compute_bodyforce_3D (sqrt : ℚ → ℚ) (points : List ℚ)
    (face_corners num_face_corners : List ℕ) (num_faces : ℕ)
    (centroid bforce : List ℚ) (b_global : List ℚ) : List ℚ :=
  (List.range num_faces).foldl (fun b f =>
    let fcorner_start := isum num_face_corners f
    let nfc := gn num_face_corners f
    let tris := tessellate_face 3 sqrt
      (pick_points 3 points (face_corners.drop fcorner_start) nfc) nfc false
    (List.range nfc).foldl (fun b2 c =>
      let t1 := tris.getD (2*c) []
      let t2 := if c = 0 then tris.getD (tris.length - 1) []
        else tris.getD (2*c - 1) []
      let vol1 := tetrahedron_volume t1 (t1.drop 3) (t1.drop 6) centroid
      let vol2 := tetrahedron_volume t2 (t2.drop 3) (t2.drop 6) centroid
      (List.range 3).foldl (fun b3 d =>
        addAt b3 (3 * gn face_corners (fcorner_start + c) + d)
          ((vol1 + vol2) * gq bforce d)) b2) b) b_global

/-! ## Boundary conditions -/

/-- A COO sparse-matrix entry `(row, column, value)`. -/
abbrev Triplet := ℕ × ℕ × ℚ

/-- Adjacent-pair ascending check; embeds `std::is_sorted` on `int` data. -/
def is_sorted : List ℕ → Bool
| [] => true
| [_] => true
| a :: b :: t => a ≤ b && is_sorted (b :: t)

/-- Sort triplets by column; a stable realisation of the C++
`std::sort(A.begin(), A.end(), by-column)`. -/
def sort_by_col (A : List Triplet) : List Triplet :=
  A.insertionSort (fun a b => a.2.1 ≤ b.2.1)

/-- The column-elimination pass shared by `reduce_system` (with `zero =
false`) and `set_boundary_conditions` (with `zero = true`): for each fixed
dof (first occurrence only, matching the C++ `lower_bound`/`cur_end` scan
over the column-sorted data), move the column's contributions to the
right-hand side and, when `zero` is set, zero those matrix entries. -/
def elim_step (zero : Bool) (st : List Triplet × List ℚ × Option ℕ)
    (dv : ℕ × ℚ) : List Triplet × List ℚ × Option ℕ :=
  if st.2.2 = some dv.1 then st
  else
    ((if zero then
        st.1.map (fun t => if t.2.1 = dv.1 then (t.1, t.2.1, (0:ℚ)) else t)
      else st.1),
     st.1.foldl (fun bb t =>
       if t.2.1 = dv.1 then addAt bb t.1 (-(t.2.2 * dv.2)) else bb) st.2.1,
     some dv.1)

def elim_cols (zero : Bool) (dofvals : List (ℕ × ℚ)) (A : List Triplet)
    (b : List ℚ) : List Triplet × List ℚ :=
  let st := dofvals.foldl (elim_step zero) (A, b, none)
  (st.1, st.2.1)

/-- Eliminate Dirichlet dofs by removing their rows/columns and renumbering
the remaining dofs contiguously (C++ `reduce_system`). -/
def reduce_system (A : List Triplet) (b : List ℚ) (fixed_dof_ixs : List ℕ)
    (fixed_dof_values : List ℚ) : Except VemError (List Triplet × List ℚ) :=
  if ¬ is_sorted fixed_dof_ixs then Except.error VemError.invalidArgument
  else
    let As := sort_by_col A
    let dofvals := (List.range fixed_dof_ixs.length).map (fun i =>
      (gn fixed_dof_ixs i, gq fixed_dof_values i))
    let eb := elim_cols false dofvals As b
    let renum := (List.range eb.2.length).filter (fun k =>
      !(fixed_dof_ixs.contains k))
    let discard := fun k => fixed_dof_ixs.contains k || decide (eb.2.length ≤ k)
    let A2 := (eb.1.filter (fun t => !(discard t.1 || discard t.2.1))).map
      (fun t => ((renum.findIdx (fun x => x == t.1) : ℕ),
        (renum.findIdx (fun x => x == t.2.1) : ℕ), t.2.2))
    let b2 := renum.map (fun k => gq eb.2 k)
    Except.ok (A2, b2)

/-- Enforce Dirichlet dofs by rewriting their rows/columns into trivial
identity equations, keeping the system dimension (C++
`set_boundary_conditions`). -/
def set_boundary_conditions (A : List Triplet) (b : List ℚ)
    (fixed_dof_ixs : List ℕ) (fixed_dof_values : List ℚ) :
    Except VemError (List Triplet × List ℚ) :=
  if ¬ is_sorted fixed_dof_ixs then Except.error VemError.invalidArgument
  else
    let As := sort_by_col A
    let dofvals := (List.range fixed_dof_ixs.length).map (fun i =>
      (gn fixed_dof_ixs i, gq fixed_dof_values i))
    let eb := elim_cols true dofvals As b
    let discard := fun k => fixed_dof_ixs.contains k || decide (b.length ≤ k)
    let A2 := eb.1.map (fun t =>
      if discard t.1 || discard t.2.1 then
        if t.1 = t.2.1 then (t.1, t.2.1, (1:ℚ)) else (t.1, t.2.1, (0:ℚ))
      else t)
    let b2 := (List.range fixed_dof_ixs.length).foldl (fun bb i =>
      bb.set (gn fixed_dof_ixs i) (gq fixed_dof_values i)) eb.2
    Except.ok (A2, b2)

/-- Debug conversion of a triplet list to a dense buffer; note the row index
is scaled by `r` exactly as in the source (C++ `vem::sparse2full`). -/
def sparse2full (nz : List Triplet) (r c : ℕ) : List ℚ :=
  nz.foldl (fun res t => addAt res (t.1 * r + t.2.1) t.2.2)
    (List.replicate (r * c) 0)

/-! ## Global assembly -/

/-- Sorted list of the distinct global node indices referenced by the faces
(the C++ `global_to_local_indexing` output parameter `indexing`; the returned
reindex map is realised by `List.findIdx` on this list). -/
def global_to_local_indexing (faces : List ℕ) (num_face_edges : List ℕ)
    (num_faces : ℕ) : List ℕ :=
  ((faces.take (isum num_face_edges num_faces)).insertionSort (· ≤ ·)).dedup

/-- Local stiffness matrix of a 2D element
(C++ `vem::assemble_stiffness_matrix_2D`). -/
def assemble_stiffness_matrix_2D (sqrt cbrt : ℚ → ℚ) (points : List ℚ)
    (corner_ixs : List ℕ) (num_corners : ℕ) (young poisson : ℚ)
    (stability_choice : StabilityChoice) : List ℚ :=
  let corners := pick_points 2 points corner_ixs num_corners
  let area := element_volume_2D sqrt corners num_corners
  let q := compute_q_2D sqrt corners num_corners
  let Nr := compute_Nr_2D corners num_corners
  let Nc := compute_Nc_2D corners num_corners
  let Wr := compute_Wr_2D q
  let Wc := compute_Wc_2D q
  let D := compute_D_2D young poisson
  let ImP := compute_ImP Nr Nc Wr Wc 2
  final_assembly cbrt Wc D Nc ImP stability_choice area num_corners 2

/-- Local stiffness matrix of a 3D element together with the cell centroid and
the local-to-global indexing (C++ `vem::assemble_stiffness_matrix_3D`). -/
def assemble_stiffness_matrix_3D (sqrt cbrt : ℚ → ℚ) (points : List ℚ)
    (faces : List ℕ) (num_face_edges : List ℕ) (num_faces : ℕ)
    (young poisson : ℚ) (stability_choice : StabilityChoice) :
    Except VemError (List ℚ × List ℕ × List ℚ) :=
  let indexing := global_to_local_indexing faces num_face_edges num_faces
  let num_corners := indexing.length
  let num_face_entries := isum num_face_edges num_faces
  let corners_loc := pick_points 3 points indexing num_corners
  let faces_loc := (faces.take num_face_entries).map (fun I =>
    indexing.findIdx (fun x => x == I))
  (compute_cell_geometry sqrt corners_loc num_corners faces_loc num_face_edges
      num_faces).bind (fun geom =>
    let q := compute_q_3D sqrt corners_loc (corners_loc.length / 3) faces_loc
      num_face_edges num_faces geom.volume geom.outward_normals
    let Nr := compute_Nr_3D corners_loc num_corners
    let Nc := compute_Nc_3D corners_loc num_corners
    let Wr := compute_Wr_3D q
    let Wc := compute_Wc_3D q
    let D := compute_D_3D young poisson
    let ImP := compute_ImP Nr Nc Wr Wc 3
    Except.ok (geom.cell_centroid, indexing,
      final_assembly cbrt Wc D Nc ImP stability_choice geom.volume num_corners 3))

/-- Assemble the global 2D mechanical system; returns `(A_entries, b,
b.size())` (C++ `vem::assemble_mech_system_2D`).  The C++ scratch reuse of
`loc` for the body-force buffer is realised by a fresh zero buffer of length
`2*ncf`, which is the exact prefix the C++ zero-fills and reads back. -/
def assemble_mech_system_2D (sqrt cbrt : ℚ → ℚ) (points : List ℚ)
    (num_cells : ℕ) (num_cell_faces : List ℕ) (cell_corners : List ℕ)
    (young poisson body_force : List ℚ) (fixed_dof_ixs : List ℕ)
    (fixed_dof_values : List ℚ) (num_neumann_faces : ℕ)
    (neumann_faces : List ℕ) (neumann_forces : List ℚ)
    (stability_choice : StabilityChoice) (reduce_boundary : Bool) :
    Except VemError (List Triplet × List ℚ × ℕ) :=
  let tot_num_cell_faces := isum num_cell_faces num_cells
  let num_points := (cell_corners.take tot_num_cell_faces).foldl max 0 + 1
  let A_entries := (List.range num_cells).flatMap (fun c =>
    let corner_ixs := isum num_cell_faces c
    let ncf := gn num_cell_faces c
    let loc := assemble_stiffness_matrix_2D sqrt cbrt points
      (cell_corners.drop corner_ixs) ncf (gq young c) (gq poisson c)
      stability_choice
    (List.range (2*ncf)).flatMap (fun i =>
      (List.range (2*ncf)).map (fun j =>
        ((2 * gn cell_corners (corner_ixs + i/2) + i % 2 : ℕ),
         (2 * gn cell_corners (corner_ixs + j/2) + j % 2 : ℕ),
         gq loc (i * (2*ncf) + j)))))
  let b0 := List.replicate (num_points * 2) (0:ℚ)
  let b1 := (List.range num_cells).foldl (fun b c =>
    let corner_ixs := isum num_cell_faces c
    let ncf := gn num_cell_faces c
    let loc := compute_bodyforce_2D sqrt points (cell_corners.drop corner_ixs)
      ncf (body_force.drop (2*c)) (List.replicate (2*ncf) 0)
    (List.range (ncf*2)).foldl (fun b2 i =>
      addAt b2 (2 * gn cell_corners (corner_ixs + i/2) + i % 2) (gq loc i)) b) b0
  let b2 := (List.range num_neumann_faces).foldl (fun b f =>
    let fvals := compute_applied_forces_2D sqrt points
      (gn neumann_faces (2*f)) (gn neumann_faces (2*f + 1))
      (gq neumann_forces (2*f)) (gq neumann_forces (2*f + 1))
    addAt (addAt (addAt (addAt b (2 * gn neumann_faces (2*f)) (gq fvals 0))
        (2 * gn neumann_faces (2*f) + 1) (gq fvals 1))
      (2 * gn neumann_faces (2*f + 1)) (gq fvals 2))
      (2 * gn neumann_faces (2*f + 1) + 1) (gq fvals 3)) b1
  (if reduce_boundary then
      reduce_system A_entries b2 fixed_dof_ixs fixed_dof_values
    else
      set_boundary_conditions A_entries b2 fixed_dof_ixs fixed_dof_values).map
    (fun p => (p.1, p.2, p.2.length))

/-- Assemble the global 3D mechanical system; returns `(A_entries, b,
b.size())` (C++ `vem::assemble_mech_system_3D`). -/
def assemble_mech_system_3D (sqrt cbrt : ℚ → ℚ) (points : List ℚ)
    (num_cells : ℕ) (num_cell_faces num_face_corners face_corners : List ℕ)
    (young poisson body_force : List ℚ) (fixed_dof_ixs : List ℕ)
    (fixed_dof_values : List ℚ) (num_neumann_faces : ℕ)
    (neumann_faces : List ℕ) (neumann_forces : List ℚ)
    (stability_choice : StabilityChoice) (reduce_boundary : Bool) :
    Except VemError (List Triplet × List ℚ × ℕ) :=
  let tot_num_cell_faces := isum num_cell_faces num_cells
  let tot_num_face_corners := isum num_face_corners tot_num_cell_faces
  let num_points := (face_corners.take tot_num_face_corners).foldl max 0 + 1
  let b0 := List.replicate (num_points * 3) (0:ℚ)
  ((List.range num_cells).foldlM (fun (st : List Triplet × List ℚ) c =>
      let cf_ix := isum num_cell_faces c
      let fcorners_start := isum num_face_corners cf_ix
      (assemble_stiffness_matrix_3D sqrt cbrt points
          (face_corners.drop fcorners_start) (num_face_corners.drop cf_ix)
          (gn num_cell_faces c) (gq young c) (gq poisson c)
          stability_choice).map (fun res =>
        let ncv := res.2.1.length
        let A' := st.1 ++ (List.range (3*ncv)).flatMap (fun i =>
          (List.range (3*ncv)).map (fun j =>
            ((3 * gn res.2.1 (i/3) + i % 3 : ℕ),
             (3 * gn res.2.1 (j/3) + j % 3 : ℕ),
             gq res.2.2 (i * (3*ncv) + j))))
        let b' := compute_bodyforce_3D sqrt points
          (face_corners.drop fcorners_start) (num_face_corners.drop cf_ix)
          (gn num_cell_faces c) res.1 (body_force.drop (3*c)) st.2
        (A', b'))) (([], b0) : List Triplet × List ℚ)).bind (fun st =>
    let b := compute_applied_forces_3D sqrt points num_face_corners
      face_corners num_neumann_faces neumann_faces neumann_forces st.2
    (if reduce_boundary then
        reduce_system st.1 b fixed_dof_ixs fixed_dof_values
      else
        set_boundary_conditions st.1 b fixed_dof_ixs fixed_dof_values).map
      (fun p => (p.1, p.2, p.2.length)))

/-! ## Concrete evaluation data

A lookup table for `std::sqrt` that is exact on every argument arising in the
concrete cells evaluated below (all such arguments are perfect rational
squares by construction of those cells), together with those cells. -/

/-- Exact values of `std::sqrt` on the arguments arising in the concrete
cells below: each pair `(a, s)` satisfies `s * s = a` and `s ≥ 0`. -/
def sqrtTbl : List (ℚ × ℚ) :=
  [(0, 0), (9, 3), (16, 4), (25, 5), (36, 6), (64, 8), (144, 12),
   (1936, 44), (13689, 117), (57600, 240),
   (15625/4, 125/2), (14884, 122), (71289/4, 267/2),
   (484, 22), (13689/4, 117/2), (14400, 120),
   (1656369, 1287), (6969600, 2640), (49280400, 7020),
   (1656369/4, 1287/2), (1742400, 1320), (12320100, 3510),
   (106007616, 10296), (446054400, 21120), (3153945600, 56160)]

/-- Table-lookup square root, exact on the table and `0` elsewhere. -/
def sqrtW (x : ℚ) : ℚ := (((sqrtTbl.find? (fun p => p.1 = x)).map
  (fun p => p.2)).getD 0)

/-- Placeholder cube root for concrete runs that never reach the `D_RECIPE`
branch. -/
def cbrtW (_ : ℚ) : ℚ := 0

/-- A 6 x 8 rectangle: all tessellation triangles are 3-4-5 right triangles,
so the whole 2D pipeline is exact under `sqrtW`. -/
def rectPoints : List ℚ := [0, 0, 6, 0, 6, 8, 0, 8]

/-- A degenerate pentagon: the 6 x 8 rectangle with its first corner repeated
as a fifth corner (a zero-length closing edge). -/
def pentCorners : List ℚ := [0, 0, 6, 0, 6, 8, 0, 8, 0, 0]

/-- The smallest Euler brick, 44 x 117 x 240: all face diagonals are integers
(125, 244, 267), so the whole 3D geometry pipeline is exact under `sqrtW`. -/
def brickPoints : List ℚ :=
  [0, 0, 0,  44, 0, 0,  0, 117, 0,  44, 117, 0,
   0, 0, 240,  44, 0, 240,  0, 117, 240,  44, 117, 240]

/-- The six quadrilateral faces of the brick, corner-ordered so that all
normals point outward. -/
def brickFaceCorners : List ℕ :=
  [0, 2, 3, 1,  4, 5, 7, 6,  0, 1, 5, 4,  2, 6, 7, 3,  0, 4, 6, 2,  1, 3, 7, 5]

/-- Corner counts of the brick faces. -/
def brickNumFaceCorners : List ℕ := [4, 4, 4, 4, 4, 4]

/-! ## Result projections (used to state closed concrete facts about
`Except`-valued runs without binders) -/

/-- The summed COO value of a boundary-condition result at a coordinate
(`none` when the run failed). -/
def cooSum (A : List Triplet) (i j : ℕ) : ℚ :=
  ((A.filter (fun t => t.1 = i ∧ t.2.1 = j)).map (fun t => t.2.2)).sum

/-- `cooSum` of the matrix of a boundary-condition result. -/
def cooSumOfResult (e : Except VemError (List Triplet × List ℚ)) (i j : ℕ) :
    Option ℚ :=
  match e with
  | Except.ok p => some (cooSum p.1 i j)
  | Except.error _ => none

/-- The matrix triplets of a successful boundary-condition run (`[]` on
failure). -/
def bcA (e : Except VemError (List Triplet × List ℚ)) : List Triplet :=
  match e with
  | Except.ok p => p.1
  | Except.error _ => []

/-- The right-hand side of a successful boundary-condition run (`[]` on
failure). -/
def bcB (e : Except VemError (List Triplet × List ℚ)) : List ℚ :=
  match e with
  | Except.ok p => p.2
  | Except.error _ => []

/-- The outward normals of a successful `compute_cell_geometry` run. -/
def normals_of (e : Except VemError CellGeom) : Option (List ℚ) :=
  match e with
  | Except.ok g => some g.outward_normals
  | Except.error _ => none

/-- The statement that an assembly run, when successful, returned the length
of its final right-hand side, and that this length is `n`. -/
def ret_eq_blen (e : Except VemError (List Triplet × List ℚ × ℕ)) (n : ℕ) :
    Prop :=
  match e with
  | Except.ok p => p.2.2 = p.2.1.length ∧ p.2.1.length = n
  | Except.error _ => True

/-- The behind-classification formula asserted by the specification.
Modelled from the spec: "is_behind_face holds exactly when
((point - face_centroid) . normal) + 1e-13 is negative". -/
def spec_behind_formula (point normal fc : List ℚ) : Prop :=
  (gq point 0 - gq fc 0) * gq normal 0 + (gq point 1 - gq fc 1) * gq normal 1
    + (gq point 2 - gq fc 2) * gq normal 2 + tol < 0

/-- The per-corner attribution formula asserted by the specification: corner
`c` is attributed the areas of tessellation triangles `2c` and `2c+1`.
Modelled from the spec: "triangles 2c and 2c+1 are the pair associated with
corner c (used to attribute nodal contributions ... back to corners)". -/
def spec_corner_attribution (dim : ℕ) (sqrt : ℚ → ℚ) (corners : List ℚ)
    (num_corners : ℕ) (values : List ℚ) : ℚ :=
  let tris := tessellate_face dim sqrt corners num_corners false
  rsum num_corners (fun c =>
    let t1 := tris.getD (2*c) []
    let t2 := tris.getD (2*c + 1) []
    gq values c * (triarea dim sqrt t1 (t1.drop dim) (t1.drop (2*dim))
      + triarea dim sqrt t2 (t2.drop dim) (t2.drop (2*dim))))

/-- Row-major interpretation of a flat buffer as an `m x n` matrix. -/
def toMat (l : List ℚ) (m n : ℕ) : Matrix (Fin m) (Fin n) ℚ :=
  Matrix.of (fun i j => gq l (i.1 * n + j.1))

/-- A small concrete 2 x 3 `Nc`-shaped buffer for concrete instantiations. -/
def ncSmall : List ℚ := [1, 0, 0, 0, 2, 0]

/-- A small concrete 2 x 3 `Wc`-shaped buffer for concrete instantiations. -/
def wcSmall : List ℚ := [1, 1, 1, 1, 1, 1]

/-- The q-vector of the 6 x 8 rectangle, through the real 2D pipeline. -/
def rectQ : List ℚ := compute_q_2D sqrtW rectPoints 4

/-- `Nr` of the rectangle. -/
def rectNr : List ℚ := compute_Nr_2D rectPoints 4

/-- `Nc` of the rectangle. -/
def rectNc : List ℚ := compute_Nc_2D rectPoints 4

/-- `Wr` of the rectangle. -/
def rectWr : List ℚ := compute_Wr_2D rectQ

/-- `Wc` of the rectangle. -/
def rectWc : List ℚ := compute_Wc_2D rectQ

/-! # Lemmas -/

open Matrix

section

attribute [local semireducible] Rat.add Rat.mul Rat.inv Rat.sub Rat.ofScientific

/-! ## List utilities -/

theorem getD_set (l : List α) (i j : ℕ) (v d : α) :
    (l.set i v).getD j d = if i = j ∧ j < l.length then v else l.getD j d := by
  rcases Nat.lt_or_ge j l.length with hj | hj
  · by_cases hij : i = j
    · subst hij
      simp [List.getD_eq_getElem?_getD, List.getElem?_set_self, hj,
        List.getElem?_eq_getElem hj]
    · simp [List.getD_eq_getElem?_getD, List.getElem?_set_ne hij, hij, hj]
  · have h1 : ¬ (i = j ∧ j < l.length) := by omega
    simp only [h1, if_false]
    have h2 : (l.set i v).length ≤ j := by simpa using hj
    simp [List.getD_eq_getElem?_getD, List.getElem?_eq_none h2,
      List.getElem?_eq_none hj]

theorem getD_map_range (f : ℕ → α) (d : α) (n i : ℕ) :
    ((List.range n).map f).getD i d = if i < n then f i else d := by
  rcases Nat.lt_or_ge i n with h | h
  · rw [List.getD_eq_getElem?_getD]
    simp [List.getElem?_map, List.getElem?_range h, h]
  · have : ((List.range n).map f).length ≤ i := by simpa using h
    rw [List.getD_eq_getElem?_getD, List.getElem?_eq_none this]
    simp [Nat.not_lt_of_ge h]

theorem length_flatMap_map (g : ℕ → ℕ → α) (a b : ℕ) :
    ((List.range a).flatMap (fun r => (List.range b).map (g r))).length
      = a * b := by
  induction a with
  | zero => simp
  | succ a ih =>
    rw [List.range_succ, List.flatMap_append]
    simp [ih, Nat.succ_mul]

theorem getD_flatMap_map (g : ℕ → ℕ → α) (a b i j : ℕ) (d : α)
    (hi : i < a) (hj : j < b) :
    ((List.range a).flatMap (fun r => (List.range b).map (g r))).getD
      (i * b + j) d = g i j := by
  induction a with
  | zero => omega
  | succ a ih =>
    rw [List.range_succ, List.flatMap_append]
    rcases Nat.lt_or_ge i a with h | h
    · rw [List.getD_eq_getElem?_getD, List.getElem?_append_left (by
        rw [length_flatMap_map]
        calc i * b + j < i * b + b := by omega
        _ = (i+1) * b := by ring
        _ ≤ a * b := Nat.mul_le_mul_right b h)]
      rw [← List.getD_eq_getElem?_getD _ _ d]
      exact ih h
    · have hia : i = a := by omega
      subst hia
      rw [List.getD_eq_getElem?_getD, List.getElem?_append_right (by
        rw [length_flatMap_map]; exact Nat.le_add_right _ _)]
      rw [length_flatMap_map]
      simp only [List.flatMap_cons, List.flatMap_nil, List.append_nil]
      have : i * b + j - i * b = j := by omega
      rw [this, List.getElem?_map, List.getElem?_range hj]
      simp

theorem getD_flatMap_pair (f h : ℕ → α) (n c : ℕ) (d : α) (hc : c < n) :
    (((List.range n).flatMap (fun c => [f c, h c])).getD (2*c) d = f c)
      ∧ ((List.range n).flatMap (fun c => [f c, h c])).getD (2*c + 1) d
        = h c := by
  have e : ∀ c, [f c, h c] = (List.range 2).map (fun j =>
      if j = 0 then f c else h c) := by
    intro c
    simp [List.range_succ]
  have e2 : (List.range n).flatMap (fun c => [f c, h c])
      = (List.range n).flatMap (fun c => (List.range 2).map (fun j =>
        if j = 0 then f c else h c)) := by
    exact List.flatMap_congr (fun c _ => e c)
  constructor
  · rw [e2]
    have := getD_flatMap_map (fun c j => if j = 0 then f c else h c) n 2 c 0 d
      hc (by omega)
    simpa [Nat.mul_comm] using this
  · rw [e2]
    have := getD_flatMap_map (fun c j => if j = 0 then f c else h c) n 2 c 1 d
      hc (by omega)
    simpa [Nat.mul_comm] using this

theorem length_flatMap_pair (f h : ℕ → α) (n : ℕ) :
    ((List.range n).flatMap (fun c => [f c, h c])).length = 2 * n := by
  induction n with
  | zero => simp
  | succ n ih =>
    rw [List.range_succ, List.flatMap_append]
    simp [ih]
    omega

theorem rsum_eq_sum (n : ℕ) (f : ℕ → ℚ) :
    rsum n f = ∑ i ∈ Finset.range n, f i := by
  induction n with
  | zero => simp [rsum]
  | succ n ih =>
    rw [rsum, List.range_succ, List.map_append, List.sum_append,
      Finset.sum_range_succ, ← rsum, ih]
    simp

theorem rsum_congr (n : ℕ) (f g : ℕ → ℚ) (h : ∀ i, i < n → f i = g i) :
    rsum n f = rsum n g := by
  rw [rsum_eq_sum, rsum_eq_sum]
  exact Finset.sum_congr rfl (fun i hi => h i (Finset.mem_range.mp hi))

theorem rsum_add (n : ℕ) (f g : ℕ → ℚ) :
    rsum n (fun i => f i + g i) = rsum n f + rsum n g := by
  rw [rsum_eq_sum, rsum_eq_sum, rsum_eq_sum]
  exact Finset.sum_add_distrib

theorem addAt_length (l : List ℚ) (i : ℕ) (v : ℚ) :
    (addAt l i v).length = l.length := by
  simp [addAt]

theorem getD_addAt (l : List ℚ) (i j : ℕ) (v : ℚ) :
    (addAt l i v).getD j 0
      = if i = j ∧ j < l.length then l.getD j 0 + v else l.getD j 0 := by
  rw [addAt, getD_set]
  by_cases h : i = j ∧ j < l.length
  · rcases h with ⟨h1, h2⟩
    subst h1
    simp [h2]
  · simp [h]

theorem foldl_length_invariant {α : Type} (f : List ℚ → α → List ℚ)
    (hf : ∀ a x, (f a x).length = a.length) (l : List α) (init : List ℚ) :
    (l.foldl f init).length = init.length := by
  induction l generalizing init with
  | nil => rfl
  | cons x t ih => rw [List.foldl_cons, ih, hf]

theorem isqrt_go_spec (c : ℕ) : ∀ m, c ≤ m → isqrt_go (c*c) m = c := by
  intro m hm
  induction m with
  | zero =>
    cases Nat.le_zero.mp hm
    simp [isqrt_go]
  | succ k ih =>
    rcases Nat.lt_or_ge c (k+1) with h | h
    · have hne : ¬ ((k+1)*(k+1) ≤ c*c) := by
        intro hle
        have := Nat.mul_lt_mul_of_lt_of_le h (Nat.le_of_lt h) (Nat.succ_pos k)
        omega
      simp only [isqrt_go, hne, if_false]
      exact ih (by omega)
    · have hc : c = k+1 := by omega
      subst hc
      simp [isqrt_go]

theorem isqrt_mul_self (c : ℕ) : isqrt (c * c) = c := by
  cases Nat.eq_zero_or_pos c with
  | inl h => subst h; simp [isqrt, isqrt_go]
  | inr h => exact isqrt_go_spec c (c*c) (Nat.le_mul_of_pos_left c h)

/-! ## Bridge from flat buffers to `Matrix` -/

theorem gq_matmul_ff (d1 d2 : List ℚ) (r1 c1 c2 : ℕ) (fac : ℚ) (i j : ℕ)
    (hi : i < r1) (hj : j < c2) :
    gq (matmul d1 r1 c1 false d2 c1 c2 false fac) (i * c2 + j)
      = fac * rsum c1 (fun k => gq d1 (i * c1 + k) * gq d2 (k * c2 + j)) := by
  unfold matmul
  simp only [Bool.false_eq_true, if_false]
  have := getD_flatMap_map (fun r c => fac * rsum c1 (fun k =>
    gq d1 (r * c1 + k * 1) * gq d2 (k * c2 + c * 1))) r1 c2 i j 0 hi hj
  rw [gq, this]
  simp

theorem gq_matmul_ft (d1 d2 : List ℚ) (r1 c1 r2 : ℕ) (fac : ℚ) (i j : ℕ)
    (hi : i < r1) (hj : j < r2) :
    gq (matmul d1 r1 c1 false d2 r2 c1 true fac) (i * r2 + j)
      = fac * rsum c1 (fun k => gq d1 (i * c1 + k) * gq d2 (j * c1 + k)) := by
  unfold matmul
  simp only [Bool.false_eq_true, if_false, if_true]
  have h0 := getD_flatMap_map (fun r c => fac * rsum c1 (fun k =>
    gq d1 (r * c1 + k * 1) * gq d2 (k * 1 + c * c1))) r1 r2 i j 0 hi hj
  rw [gq, h0]
  apply congrArg
  apply rsum_congr
  intro k _
  have e1 : i * c1 + k * 1 = i * c1 + k := by omega
  have e2 : k * 1 + j * c1 = j * c1 + k := by omega
  rw [e1, e2]

theorem gq_matmul_tf (d1 d2 : List ℚ) (r1 c1 c2 : ℕ) (fac : ℚ) (i j : ℕ)
    (hi : i < c1) (hj : j < c2) :
    gq (matmul d1 r1 c1 true d2 r1 c2 false fac) (i * c2 + j)
      = fac * rsum r1 (fun k => gq d1 (k * c1 + i) * gq d2 (k * c2 + j)) := by
  unfold matmul
  simp only [if_true, Bool.false_eq_true, if_false]
  have h0 := getD_flatMap_map (fun r c => fac * rsum r1 (fun k =>
    gq d1 (r * 1 + k * c1) * gq d2 (k * c2 + c * 1))) c1 c2 i j 0 hi hj
  rw [gq, h0]
  apply congrArg
  apply rsum_congr
  intro k _
  have e1 : i * 1 + k * c1 = k * c1 + i := by omega
  have e2 : k * c2 + j * 1 = k * c2 + j := by omega
  rw [e1, e2]

theorem toMat_matmul_ff (d1 d2 : List ℚ) (r1 c1 c2 : ℕ) (fac : ℚ) :
    toMat (matmul d1 r1 c1 false d2 c1 c2 false fac) r1 c2
      = fac • (toMat d1 r1 c1 * toMat d2 c1 c2) := by
  ext i j
  rw [toMat, Matrix.of_apply, gq_matmul_ff d1 d2 r1 c1 c2 fac i j i.2 j.2]
  rw [Matrix.smul_apply, Matrix.mul_apply, smul_eq_mul, rsum_eq_sum]
  rw [← Fin.sum_univ_eq_sum_range (fun k => gq d1 (i.1 * c1 + k) * gq d2 (k * c2 + j.1)) c1]
  apply congrArg
  apply Finset.sum_congr rfl
  intro k _
  rfl

theorem toMat_matmul_ft (d1 d2 : List ℚ) (r1 c1 r2 : ℕ) (fac : ℚ) :
    toMat (matmul d1 r1 c1 false d2 r2 c1 true fac) r1 r2
      = fac • (toMat d1 r1 c1 * (toMat d2 r2 c1)ᵀ) := by
  ext i j
  rw [toMat, Matrix.of_apply, gq_matmul_ft d1 d2 r1 c1 r2 fac i j i.2 j.2]
  rw [Matrix.smul_apply, Matrix.mul_apply, smul_eq_mul, rsum_eq_sum]
  rw [← Fin.sum_univ_eq_sum_range (fun k => gq d1 (i.1 * c1 + k) * gq d2 (j.1 * c1 + k)) c1]
  apply congrArg
  apply Finset.sum_congr rfl
  intro k _
  rfl

theorem toMat_matmul_tf (d1 d2 : List ℚ) (r1 c1 c2 : ℕ) (fac : ℚ) :
    toMat (matmul d1 r1 c1 true d2 r1 c2 false fac) c1 c2
      = fac • ((toMat d1 r1 c1)ᵀ * toMat d2 r1 c2) := by
  ext i j
  rw [toMat, Matrix.of_apply, gq_matmul_tf d1 d2 r1 c1 c2 fac i j i.2 j.2]
  rw [Matrix.smul_apply, Matrix.mul_apply, smul_eq_mul, rsum_eq_sum]
  rw [← Fin.sum_univ_eq_sum_range (fun k => gq d1 (k * c1 + i.1) * gq d2 (k * c2 + j.1)) r1]
  apply congrArg
  apply Finset.sum_congr rfl
  intro k _
  rfl

theorem length_matmul (d1 d2 : List ℚ) (r1 c1 r2 c2 : ℕ) (t1 t2 : Bool)
    (fac : ℚ) :
    (matmul d1 r1 c1 t1 d2 r2 c2 t2 fac).length
      = (if t1 then c1 else r1) * (if t2 then r2 else c2) := by
  unfold matmul
  cases t1 <;> cases t2 <;>
    simp only [Bool.false_eq_true, if_false, if_true] <;>
    exact length_flatMap_map _ _ _

theorem foldl_set_diag_getD (v : ℕ → ℚ) (N m i j : ℕ) (hi : i < N)
    (hj : j < N) (hm : m ≤ N) :
    (((List.range m).foldl (fun l t => l.set (t + N*t) (v t))
      (List.replicate (N*N) (0:ℚ)))).getD (i*N + j) 0
      = if i = j ∧ i < m then v i else 0 := by
  induction m with
  | zero => simp
  | succ m ih =>
    rw [List.range_succ, List.foldl_append, List.foldl_cons, List.foldl_nil]
    rw [getD_set]
    have hlen : ((List.range m).foldl (fun l t => l.set (t + N*t) (v t))
        (List.replicate (N*N) (0:ℚ))).length = N*N := by
      rw [foldl_length_invariant _ (fun a x => by simp) _ _]
      simp
    rw [hlen]
    have hmN : m < N := hm
    have hpos : m + N*m = i*N + j ↔ (i = m ∧ j = m) := by
      have hcm : N*m = m*N := Nat.mul_comm N m
      constructor
      · intro he
        have hij : i = m := by
          rcases Nat.lt_trichotomy i m with h | h | h
          · exfalso
            have h2 : (i+1)*N ≤ m*N := Nat.mul_le_mul_right N h
            have h3 : (i+1)*N = i*N + N := by ring
            omega
          · exact h
          · exfalso
            have h2 : (m+1)*N ≤ i*N := Nat.mul_le_mul_right N h
            have h3 : (m+1)*N = m*N + N := by ring
            omega
        have h4 : i*N = m*N := by rw [hij]
        exact ⟨hij, by omega⟩
      · rintro ⟨h1, h2⟩
        have h4 : i*N = m*N := by rw [h1]
        omega
    have hbound : i*N + j < N*N := by
      have h1 : i*N + j < (i+1)*N := by
        have : (i+1)*N = i*N + N := by ring
        omega
      have h2 : (i+1)*N ≤ N*N := Nat.mul_le_mul_right N hi
      omega
    by_cases hcase : i = m ∧ j = m
    · rcases hcase with ⟨h1, h2⟩
      subst h1; subst h2
      simp only [hpos.mpr ⟨rfl, rfl⟩, hbound, and_self, if_true]
      simp
    · have hne : ¬ (m + N*m = i*N + j ∧ i*N + j < N*N) := by
        intro hc
        exact hcase (hpos.mp hc.1)
      simp only [hne, if_false]
      rw [ih (by omega)]
      by_cases hij : i = j
      · subst hij
        have him : i ≠ m := by
          intro hc
          exact hcase ⟨hc, hc⟩
        have : (i < m + 1) ↔ (i < m) := by omega
        simp [this]
      · simp [hij]

theorem toMat_identity_matrix (fac : ℚ) (N : ℕ) :
    toMat (identity_matrix fac N) N N
      = fac • (1 : Matrix (Fin N) (Fin N) ℚ) := by
  ext i j
  rw [toMat, Matrix.of_apply, identity_matrix, gq]
  rw [foldl_set_diag_getD (fun _ => fac) N N i.1 j.1 i.2 j.2 (le_refl N)]
  rw [Matrix.smul_apply, Matrix.one_apply, smul_eq_mul]
  by_cases h : (i.1 : ℕ) = j.1
  · have : i = j := Fin.ext h
    simp [this, i.2]
  · have : i ≠ j := fun hc => h (congrArg Fin.val hc)
    simp [h, this]

theorem trace_toMat (A : List ℚ) (n : ℕ) (h : A.length = n*n) :
    trace A = Matrix.trace (toMat A n n) := by
  rw [trace]
  simp only [h, isqrt_mul_self]
  rw [rsum_eq_sum, Matrix.trace, ← Fin.sum_univ_eq_sum_range
    (fun i => gq A (i + n*i))]
  apply Finset.sum_congr rfl
  intro i _
  have e : (i.1 : ℕ) + n*i.1 = i.1*n + i.1 := by ring
  simp [Matrix.diag, toMat, gq, e]

theorem invtrace_rsum (A : List ℚ) (n : ℕ) (h : A.length = n*n) :
    invtrace A = rsum n (fun i => 1 / gq A (i*n + i)) := by
  rw [invtrace, diag_elems]
  simp only [h, isqrt_mul_self, List.length_map, List.length_range]
  apply rsum_congr
  intro i hi
  rw [gq, getD_map_range]
  simp [hi]

theorem index_lt (i j T : ℕ) (hi : i < T) (hj : j < T) : i*T + j < T*T := by
  have h1 : (i+1)*T ≤ T*T := Nat.mul_le_mul_right T hi
  have h2 : (i+1)*T = i*T + T := by ring
  omega

theorem getD_zipWith_add (l1 l2 : List ℚ) (k : ℕ) (hk1 : k < l1.length)
    (hk2 : k < l2.length) :
    (List.zipWith (· + ·) l1 l2).getD k 0 = l1.getD k 0 + l2.getD k 0 := by
  induction l1 generalizing l2 k with
  | nil => simp at hk1
  | cons a t ih =>
    cases l2 with
    | nil => simp at hk2
    | cons b s =>
      cases k with
      | zero => simp
      | succ k =>
        simp only [List.zipWith_cons_cons, List.getD_cons_succ]
        exact ih s k (by simpa using hk1) (by simpa using hk2)

theorem toMat_zipWith_add (l1 l2 : List ℚ) (T : ℕ) (h1 : l1.length = T*T)
    (h2 : l2.length = T*T) :
    toMat (List.zipWith (· + ·) l1 l2) T T = toMat l1 T T + toMat l2 T T := by
  ext i j
  have hb : i.1*T + j.1 < T*T := index_lt i.1 j.1 T i.2 j.2
  rw [toMat, Matrix.of_apply, Matrix.add_apply, toMat, Matrix.of_apply, toMat,
    Matrix.of_apply, gq, gq, gq]
  exact getD_zipWith_add l1 l2 _ (by omega) (by omega)

/-! ## Claim C1 -/

/-- C1: for every cell (2D or 3D) with given intermediary matrices, Young's
modulus/Poisson ratio entering through `D`, and stability choice, the local
stiffness matrix written by `final_assembly` equals, element by element, the
sum `Volume * Wc * D * Wcᵀ` (the consistent part) plus `(I-P)ᵀ * S * (I-P)`
(the stability part), where `S` is the stability matrix selected by the
stability choice. -/
theorem C1_local_stiffness_assembly (cbrt : ℚ → ℚ) (Wc D Nc ImP : List ℚ)
    (stability_choice : StabilityChoice) (volume : ℚ) (num_nodes dim : ℕ) :
    toMat (final_assembly cbrt Wc D Nc ImP stability_choice volume num_nodes
        dim) (dim * num_nodes) (dim * num_nodes)
      = volume • (toMat Wc (dim * num_nodes) (if dim = 2 then 3 else 6)
            * toMat D (if dim = 2 then 3 else 6) (if dim = 2 then 3 else 6)
            * (toMat Wc (dim * num_nodes) (if dim = 2 then 3 else 6))ᵀ)
        + (toMat ImP (dim * num_nodes) (dim * num_nodes))ᵀ
            * toMat (if stability_choice = StabilityChoice.D_RECIPE then
                  compute_S_D_recipe cbrt
                    (matmul Wc (dim * num_nodes) (if dim = 2 then 3 else 6)
                      false
                      (matmul D (if dim = 2 then 3 else 6)
                        (if dim = 2 then 3 else 6) false Wc (dim * num_nodes)
                        (if dim = 2 then 3 else 6) true 1)
                      (if dim = 2 then 3 else 6) (dim * num_nodes) false
                      volume)
                    (dim * num_nodes) volume
                else compute_S Nc D num_nodes volume dim stability_choice)
              (dim * num_nodes) (dim * num_nodes)
            * toMat ImP (dim * num_nodes) (dim * num_nodes) := by
  simp only [final_assembly]
  rw [toMat_zipWith_add _ _ (dim * num_nodes)
    (by rw [length_matmul]; simp) (by rw [length_matmul]; simp)]
  rw [toMat_matmul_ff Wc _ (dim * num_nodes) (if dim = 2 then 3 else 6)
    (dim * num_nodes) volume]
  rw [toMat_matmul_ft D Wc (if dim = 2 then 3 else 6)
    (if dim = 2 then 3 else 6) (dim * num_nodes) 1]
  rw [toMat_matmul_tf ImP _ (dim * num_nodes) (dim * num_nodes)
    (dim * num_nodes) 1]
  rw [toMat_matmul_ff _ ImP (dim * num_nodes) (dim * num_nodes)
    (dim * num_nodes) 1]
  simp [Matrix.mul_assoc]

/-! ## Claim C3 -/

/-- C3: for every cell, the stability matrix `S` selected exactly as in
`final_assembly` is diagonal, with the diagonal given by exactly the formula
of the selected stability choice: for SIMPLE, `α = Volume * trace D /
trace (NcᵀNc)`; for HARMONIC, `α = (1/9) * Volume * trace D * (sum of
reciprocals of the diagonal of NcᵀNc)`; for D_RECIPE, the `i`-th diagonal
entry is `max (cbrt Volume) ((Volume * Wc * D * Wcᵀ) i i)`; the three
formulas are mutually exclusive within one assembly call. -/
theorem C3_stability_matrix_formulas (cbrt : ℚ → ℚ) (Wc Nc D : List ℚ)
    (volume : ℚ) (num_corners dim : ℕ) (stability_choice : StabilityChoice)
    (hD : D.length
      = (if dim = 2 then 3 else 6) * (if dim = 2 then 3 else 6))
    (i j : Fin (dim * num_corners)) :
    toMat (if stability_choice = StabilityChoice.D_RECIPE then
        compute_S_D_recipe cbrt
          (matmul Wc (dim * num_corners) (if dim = 2 then 3 else 6) false
            (matmul D (if dim = 2 then 3 else 6) (if dim = 2 then 3 else 6)
              false Wc (dim * num_corners) (if dim = 2 then 3 else 6) true 1)
            (if dim = 2 then 3 else 6) (dim * num_corners) false volume)
          (dim * num_corners) volume
      else compute_S Nc D num_corners volume dim stability_choice)
      (dim * num_corners) (dim * num_corners) i j
    = if i = j then
        (match stability_choice with
         | StabilityChoice.SIMPLE =>
             volume * Matrix.trace (toMat D (if dim = 2 then 3 else 6)
                 (if dim = 2 then 3 else 6))
               / Matrix.trace
                 ((toMat Nc (dim * num_corners) (if dim = 2 then 3 else 6))ᵀ
                   * toMat Nc (dim * num_corners) (if dim = 2 then 3 else 6))
         | StabilityChoice.HARMONIC =>
             (1/9) * volume * Matrix.trace (toMat D (if dim = 2 then 3 else 6)
                 (if dim = 2 then 3 else 6))
               * (∑ k : Fin (if dim = 2 then 3 else 6),
                   1 / (((toMat Nc (dim * num_corners)
                       (if dim = 2 then 3 else 6))ᵀ
                     * toMat Nc (dim * num_corners)
                       (if dim = 2 then 3 else 6)) k k))
         | StabilityChoice.D_RECIPE =>
             max (cbrt volume)
               ((volume • (toMat Wc (dim * num_corners)
                     (if dim = 2 then 3 else 6)
                   * toMat D (if dim = 2 then 3 else 6)
                     (if dim = 2 then 3 else 6)
                   * (toMat Wc (dim * num_corners)
                     (if dim = 2 then 3 else 6))ᵀ)) i i))
      else 0 := by
  have hNtN : toMat (matmul Nc (dim * num_corners) (if dim = 2 then 3 else 6)
      true Nc (dim * num_corners) (if dim = 2 then 3 else 6) false 1)
      (if dim = 2 then 3 else 6) (if dim = 2 then 3 else 6)
      = (toMat Nc (dim * num_corners) (if dim = 2 then 3 else 6))ᵀ
        * toMat Nc (dim * num_corners) (if dim = 2 then 3 else 6) := by
    rw [toMat_matmul_tf, one_smul]
  have hNtNlen : (matmul Nc (dim * num_corners) (if dim = 2 then 3 else 6)
      true Nc (dim * num_corners) (if dim = 2 then 3 else 6) false 1).length
      = (if dim = 2 then 3 else 6) * (if dim = 2 then 3 else 6) := by
    rw [length_matmul]; simp
  cases stability_choice with
  | SIMPLE =>
    simp only [compute_S, reduceCtorEq, if_false, if_true]
    rw [toMat_identity_matrix]
    rw [trace_toMat D _ hD, trace_toMat _ _ hNtNlen, hNtN]
    rw [Matrix.smul_apply, Matrix.one_apply, smul_eq_mul]
    by_cases h : i = j <;> simp [h]
  | HARMONIC =>
    simp only [compute_S, reduceCtorEq, if_false, if_true]
    rw [toMat_identity_matrix]
    rw [trace_toMat D _ hD]
    rw [invtrace_rsum _ _ hNtNlen]
    have hsum : rsum (if dim = 2 then 3 else 6) (fun k =>
        1 / gq (matmul Nc (dim * num_corners) (if dim = 2 then 3 else 6) true
          Nc (dim * num_corners) (if dim = 2 then 3 else 6) false 1)
          (k * (if dim = 2 then 3 else 6) + k))
        = ∑ k : Fin (if dim = 2 then 3 else 6),
          1 / (((toMat Nc (dim * num_corners) (if dim = 2 then 3 else 6))ᵀ
            * toMat Nc (dim * num_corners) (if dim = 2 then 3 else 6)) k k) := by
      rw [rsum_eq_sum, ← Fin.sum_univ_eq_sum_range (fun k =>
        1 / gq (matmul Nc (dim * num_corners) (if dim = 2 then 3 else 6) true
          Nc (dim * num_corners) (if dim = 2 then 3 else 6) false 1)
          (k * (if dim = 2 then 3 else 6) + k))]
      apply Finset.sum_congr rfl
      intro k _
      rw [← hNtN]
      rfl
    rw [hsum]
    rw [Matrix.smul_apply, Matrix.one_apply, smul_eq_mul]
    by_cases h : i = j <;> simp [h]
  | D_RECIPE =>
    simp only [if_true]
    rw [toMat, Matrix.of_apply, compute_S_D_recipe, gq]
    rw [foldl_set_diag_getD _ (dim * num_corners) (dim * num_corners) i.1 j.1
      i.2 j.2 (le_refl _)]
    have hE : ∀ (t : ℕ) (ht : t < dim * num_corners),
        gq (matmul Wc (dim * num_corners) (if dim = 2 then 3 else 6) false
          (matmul D (if dim = 2 then 3 else 6) (if dim = 2 then 3 else 6)
            false Wc (dim * num_corners) (if dim = 2 then 3 else 6) true 1)
          (if dim = 2 then 3 else 6) (dim * num_corners) false volume)
          (t + (dim * num_corners) * t)
        = (volume • (toMat Wc (dim * num_corners) (if dim = 2 then 3 else 6)
            * toMat D (if dim = 2 then 3 else 6) (if dim = 2 then 3 else 6)
            * (toMat Wc (dim * num_corners)
              (if dim = 2 then 3 else 6))ᵀ)) ⟨t, ht⟩ ⟨t, ht⟩ := by
      intro t ht
      have e : t + (dim * num_corners) * t = t * (dim * num_corners) + t := by
        ring
      rw [e]
      have hM : toMat (matmul Wc (dim * num_corners)
          (if dim = 2 then 3 else 6) false
          (matmul D (if dim = 2 then 3 else 6) (if dim = 2 then 3 else 6)
            false Wc (dim * num_corners) (if dim = 2 then 3 else 6) true 1)
          (if dim = 2 then 3 else 6) (dim * num_corners) false volume)
          (dim * num_corners) (dim * num_corners)
          = volume • (toMat Wc (dim * num_corners) (if dim = 2 then 3 else 6)
            * toMat D (if dim = 2 then 3 else 6) (if dim = 2 then 3 else 6)
            * (toMat Wc (dim * num_corners) (if dim = 2 then 3 else 6))ᵀ) := by
        rw [toMat_matmul_ff, toMat_matmul_ft]
        simp [Matrix.mul_assoc]
      have := congrFun (congrFun hM ⟨t, ht⟩) ⟨t, ht⟩
      rw [toMat, Matrix.of_apply] at this
      exact this
    by_cases h : i = j
    · subst h
      simp only [if_true, i.2, and_true, true_and]
      rw [hE i.1 i.2]
    · have h2 : (i.1 : ℕ) = j.1 ↔ False := by
        constructor
        · intro hc; exact h (Fin.ext hc)
        · intro hc; exact hc.elim
      simp [h, h2]

/-- Witness for C3 at a concrete input (SIMPLE choice, one 2D node). -/
theorem C3_stability_matrix_formulas_witness :
    (compute_D_2D 1 (1/4)).length
        = (if (2:ℕ) = 2 then 3 else 6) * (if (2:ℕ) = 2 then 3 else 6)
      ∧ toMat (compute_S ncSmall (compute_D_2D 1 (1/4)) 1 5 2
          StabilityChoice.SIMPLE) 2 2 0 0
        = 5 * Matrix.trace (toMat (compute_D_2D 1 (1/4)) 3 3)
          / Matrix.trace ((toMat ncSmall 2 3)ᵀ * toMat ncSmall 2 3) := by
  constructor
  · decide
  · have h := C3_stability_matrix_formulas (fun _ => 0) wcSmall ncSmall
      (compute_D_2D 1 (1/4)) 5 1 2 StabilityChoice.SIMPLE (by decide) 0 0
    simpa using h

/-! ## Claim C4 -/

theorem gq_replicate_zero (n k : ℕ) : gq (List.replicate n (0:ℚ)) k = 0 := by
  rw [gq]
  rcases Nat.lt_or_ge k n with h | h
  · rw [List.getD_eq_getElem?_getD, List.getElem?_replicate]
    simp [h]
  · rw [List.getD_eq_getElem?_getD, List.getElem?_eq_none (by simpa using h)]
    simp

theorem toMat_replicate_zero (n m : ℕ) :
    toMat (List.replicate (n*n) (0:ℚ)) m m = 0 := by
  ext i j
  rw [toMat, Matrix.of_apply, gq_replicate_zero]
  simp

theorem list_eq_of_getD (l1 l2 : List ℚ) (hlen : l1.length = l2.length)
    (h : ∀ k, k < l1.length → l1.getD k 0 = l2.getD k 0) : l1 = l2 := by
  apply List.ext_getElem hlen
  intro k hk1 hk2
  have e1 : l1.getD k 0 = l1[k] := by
    rw [List.getD_eq_getElem?_getD, List.getElem?_eq_getElem hk1]
    rfl
  have e2 : l2.getD k 0 = l2[k] := by
    rw [List.getD_eq_getElem?_getD, List.getElem?_eq_getElem hk2]
    rfl
  rw [← e1, ← e2]
  exact h k hk1

theorem toMat_compute_ImP (Nr Nc Wr Wc : List ℚ) (dim N r c : ℕ)
    (hN : N = if dim = 2 then Nc.length / 6 else Nc.length / 18)
    (hr : r = dim * N) (hc : c = if dim = 2 then 3 else 6) :
    toMat (compute_ImP Nr Nc Wr Wc dim) r r
      = 1 - (toMat Nr r c * (toMat Wr r c)ᵀ + toMat Nc r c * (toMat Wc r c)ᵀ) := by
  have hrc : r = N * dim := by rw [hr, Nat.mul_comm]
  ext i j
  rw [toMat, Matrix.of_apply, compute_ImP]
  simp only [← hN, ← hc, ← hr, ← hrc]
  rw [gq, getD_map_range]
  have hb : i.1 * r + j.1 < r * r := index_lt i.1 j.1 r i.2 j.2
  simp only [hb, if_true]
  have hid : gq (identity_matrix 1 r) (i.1 * r + j.1)
      = ((1 : Matrix (Fin r) (Fin r) ℚ)) i j := by
    have := congrFun (congrFun (toMat_identity_matrix 1 r) i) j
    rw [toMat, Matrix.of_apply] at this
    rw [this, one_smul]
  have hPr : gq (matmul Nr r c false Wr r c true 1) (i.1 * r + j.1)
      = (toMat Nr r c * (toMat Wr r c)ᵀ) i j := by
    have := congrFun (congrFun (toMat_matmul_ft Nr Wr r c r 1) i) j
    rw [toMat, Matrix.of_apply] at this
    rw [this, one_smul]
  have hPc : gq (matmul Nc r c false Wc r c true 1) (i.1 * r + j.1)
      = (toMat Nc r c * (toMat Wc r c)ᵀ) i j := by
    have := congrFun (congrFun (toMat_matmul_ft Nc Wc r c r 1) i) j
    rw [toMat, Matrix.of_apply] at this
    rw [this, one_smul]
  rw [hid, hPr, hPc]
  simp [Matrix.sub_apply, Matrix.add_apply]

/-- C4: whenever the four duality relations making `P = Nr Wrᵀ + Nc Wcᵀ` a
projector onto the rigid-plus-constant-strain mode subspace hold (the "valid
cell" condition; they hold exactly for the matrices the 2D/3D pipelines build
from a valid cell, see the witness), the matrix `I - P` computed by
`compute_ImP` from `Nr, Nc, Wr, Wc` is idempotent:
`(I-P) * (I-P) = I-P`, exactly, in the code's own `matmul` arithmetic. -/
theorem C4_ImP_idempotent (Nr Nc Wr Wc : List ℚ) (dim N r c : ℕ)
    (hN : N = if dim = 2 then Nc.length / 6 else Nc.length / 18)
    (hr : r = dim * N) (hc : c = if dim = 2 then 3 else 6)
    (h1 : matmul Wr r c true Nr r c false 1 = identity_matrix 1 c)
    (h2 : matmul Wr r c true Nc r c false 1 = List.replicate (c*c) 0)
    (h3 : matmul Wc r c true Nr r c false 1 = List.replicate (c*c) 0)
    (h4 : matmul Wc r c true Nc r c false 1 = identity_matrix 1 c) :
    matmul (compute_ImP Nr Nc Wr Wc dim) r r false
      (compute_ImP Nr Nc Wr Wc dim) r r false 1 = compute_ImP Nr Nc Wr Wc dim := by
  have bridge := toMat_compute_ImP Nr Nc Wr Wc dim N r c hN hr hc
  have d1 : (toMat Wr r c)ᵀ * toMat Nr r c = 1 := by
    have := toMat_matmul_tf Wr Nr r c c 1
    rw [h1, toMat_identity_matrix, one_smul, one_smul] at this
    exact this.symm
  have d2 : (toMat Wr r c)ᵀ * toMat Nc r c = 0 := by
    have := toMat_matmul_tf Wr Nc r c c 1
    rw [h2, toMat_replicate_zero, one_smul] at this
    exact this.symm
  have d3 : (toMat Wc r c)ᵀ * toMat Nr r c = 0 := by
    have := toMat_matmul_tf Wc Nr r c c 1
    rw [h3, toMat_replicate_zero, one_smul] at this
    exact this.symm
  have d4 : (toMat Wc r c)ᵀ * toMat Nc r c = 1 := by
    have := toMat_matmul_tf Wc Nc r c c 1
    rw [h4, toMat_identity_matrix, one_smul, one_smul] at this
    exact this.symm
  have hPP : (toMat Nr r c * (toMat Wr r c)ᵀ + toMat Nc r c * (toMat Wc r c)ᵀ)
      * (toMat Nr r c * (toMat Wr r c)ᵀ + toMat Nc r c * (toMat Wc r c)ᵀ)
      = toMat Nr r c * (toMat Wr r c)ᵀ + toMat Nc r c * (toMat Wc r c)ᵀ := by
    have e1 : (toMat Nr r c * (toMat Wr r c)ᵀ)
        * (toMat Nr r c * (toMat Wr r c)ᵀ)
        = toMat Nr r c * (toMat Wr r c)ᵀ := by
      rw [Matrix.mul_assoc, ← Matrix.mul_assoc ((toMat Wr r c)ᵀ), d1,
        Matrix.one_mul]
    have e2 : (toMat Nr r c * (toMat Wr r c)ᵀ)
        * (toMat Nc r c * (toMat Wc r c)ᵀ) = 0 := by
      rw [Matrix.mul_assoc, ← Matrix.mul_assoc ((toMat Wr r c)ᵀ), d2,
        Matrix.zero_mul, Matrix.mul_zero]
    have e3 : (toMat Nc r c * (toMat Wc r c)ᵀ)
        * (toMat Nr r c * (toMat Wr r c)ᵀ) = 0 := by
      rw [Matrix.mul_assoc, ← Matrix.mul_assoc ((toMat Wc r c)ᵀ), d3,
        Matrix.zero_mul, Matrix.mul_zero]
    have e4 : (toMat Nc r c * (toMat Wc r c)ᵀ)
        * (toMat Nc r c * (toMat Wc r c)ᵀ)
        = toMat Nc r c * (toMat Wc r c)ᵀ := by
      rw [Matrix.mul_assoc, ← Matrix.mul_assoc ((toMat Wc r c)ᵀ), d4,
        Matrix.one_mul]
    rw [Matrix.add_mul, Matrix.mul_add, Matrix.mul_add, e1, e2, e3, e4]
    simp
  have hproj : ∀ P : Matrix (Fin r) (Fin r) ℚ, P * P = P →
      (1 - P) * (1 - P) = 1 - P := by
    intro P hP
    rw [sub_mul, mul_sub, mul_sub, hP]
    simp only [one_mul, mul_one]
    abel
  have hMM : toMat (compute_ImP Nr Nc Wr Wc dim) r r
      * toMat (compute_ImP Nr Nc Wr Wc dim) r r
      = toMat (compute_ImP Nr Nc Wr Wc dim) r r := by
    rw [bridge]
    exact hproj _ hPP
  have hlenI : (compute_ImP Nr Nc Wr Wc dim).length = r * r := by
    rw [compute_ImP]
    simp only [← hN, ← hc]
    rw [List.length_map, List.length_range, hr]
    ring
  apply list_eq_of_getD
  · rw [length_matmul, hlenI]
    simp
  · intro k hk
    rw [length_matmul] at hk
    simp only [Bool.false_eq_true, if_false] at hk
    have hr0 : 0 < r := by
      by_contra hc0
      have : r = 0 := by omega
      rw [this] at hk
      omega
    have hkd : k / r < r := Nat.div_lt_of_lt_mul (by omega)
    have hkm : k % r < r := Nat.mod_lt _ hr0
    have hk2 : (k / r) * r + k % r = k := by
      have := Nat.div_add_mod k r
      have e : r * (k / r) = (k / r) * r := Nat.mul_comm _ _
      omega
    have hgq : ∀ l : List ℚ, l.getD k 0 = gq l ((k / r) * r + k % r) := by
      intro l
      rw [hk2]
      rfl
    rw [hgq, hgq]
    rw [gq_matmul_ff _ _ r r r 1 (k / r) (k % r) hkd hkm, one_mul]
    have hM := congrFun (congrFun hMM ⟨k / r, hkd⟩) ⟨k % r, hkm⟩
    rw [Matrix.mul_apply] at hM
    rw [rsum_eq_sum, ← Fin.sum_univ_eq_sum_range (fun x =>
      gq (compute_ImP Nr Nc Wr Wc dim) ((k / r) * r + x)
        * gq (compute_ImP Nr Nc Wr Wc dim) (x * r + k % r)) r]
    exact hM

set_option maxRecDepth 100000 in
set_option maxHeartbeats 2000000 in
/-- Witness for C4: the duality hypotheses hold exactly for the matrices the
2D pipeline builds from the 6 x 8 rectangle, and its `I - P` is idempotent. -/
theorem C4_ImP_idempotent_witness :
    ((4:ℕ) = if (2:ℕ) = 2 then rectNc.length / 6 else rectNc.length / 18)
      ∧ ((8:ℕ) = 2 * 4) ∧ ((3:ℕ) = if (2:ℕ) = 2 then 3 else 6)
      ∧ matmul rectWr 8 3 true rectNr 8 3 false 1 = identity_matrix 1 3
      ∧ matmul rectWr 8 3 true rectNc 8 3 false 1 = List.replicate (3*3) 0
      ∧ matmul rectWc 8 3 true rectNr 8 3 false 1 = List.replicate (3*3) 0
      ∧ matmul rectWc 8 3 true rectNc 8 3 false 1 = identity_matrix 1 3
      ∧ matmul (compute_ImP rectNr rectNc rectWr rectWc 2) 8 8 false
          (compute_ImP rectNr rectNc rectWr rectWc 2) 8 8 false 1
        = compute_ImP rectNr rectNc rectWr rectWc 2 :=
  ⟨by decide, by decide, by decide, by decide, by decide, by decide,
   by decide,
   C4_ImP_idempotent rectNr rectNc rectWr rectWc 2 4 8 3 (by decide)
     (by decide) (by decide) (by decide) (by decide) (by decide) (by decide)⟩

/-! ## Claim C8 -/

/-- C8 counterexample: at `point = face_centroid` (dot product `0`), the code
classifies the point as behind the face, while the claimed formula
`((point - face_centroid) . normal) + 1e-13 < 0` does not hold. -/
theorem C8_counterexample :
    ¬ (is_behind_face [0,0,0] [0,0,1] [0,0,0] = true
      ↔ spec_behind_formula [0,0,0] [0,0,1] [0,0,0]) := by
  simp only [spec_behind_formula]
  decide

/-- C8 amended: `is_behind_face` holds exactly when
`((point - face_centroid) . normal)` is less than the tolerance `1e-13`
(equivalently, `((face_centroid - point) . normal) + 1e-13` is positive);
the point is classified as not behind exactly when that dot product is at
least the tolerance. -/
theorem C8_is_behind_face_amended (point normal fc : List ℚ) :
    is_behind_face point normal fc = true
      ↔ (gq point 0 - gq fc 0) * gq normal 0
        + (gq point 1 - gq fc 1) * gq normal 1
        + (gq point 2 - gq fc 2) * gq normal 2 < tol := by
  rw [is_behind_face, decide_eq_true_eq]
  have e : (gq point 0 - gq fc 0) * gq normal 0
      + (gq point 1 - gq fc 1) * gq normal 1
      + (gq point 2 - gq fc 2) * gq normal 2
      = -((gq fc 0 - gq point 0) * gq normal 0
        + (gq fc 1 - gq point 1) * gq normal 1
        + (gq fc 2 - gq point 2) * gq normal 2) := by
    ring
  constructor
  · intro h
    rw [e]
    linarith
  · intro h
    rw [e] at h
    linarith

/-! ## Claim C9 -/

theorem is_sorted_iff_chain (l : List ℕ) :
    is_sorted l = true ↔ List.Chain' (· ≤ ·) l := by
  induction l with
  | nil => simp [is_sorted]
  | cons a t ih =>
    cases t with
    | nil => simp [is_sorted]
    | cons b s =>
      rw [is_sorted, Bool.and_eq_true, decide_eq_true_eq, ih,
        List.chain'_cons]

theorem is_sorted_iff (l : List ℕ) :
    is_sorted l = true ↔ List.Sorted (· ≤ ·) l := by
  rw [is_sorted_iff_chain, List.chain'_iff_pairwise]
  rfl

/-- C9: both boundary-condition strategies throw the invalid-argument error
exactly when the fixed-dof indices are not sorted ascending; the check is
performed before any modification (the functions return the error without
producing any modified system), and sorted indices never produce this
error. -/
theorem C9_sorted_dof_check (A : List Triplet) (b : List ℚ) (dofs : List ℕ)
    (vals : List ℚ) :
    ((∃ e, reduce_system A b dofs vals = Except.error e)
        ↔ ¬ List.Sorted (· ≤ ·) dofs)
      ∧ ((∃ e, set_boundary_conditions A b dofs vals = Except.error e)
        ↔ ¬ List.Sorted (· ≤ ·) dofs)
      ∧ (¬ List.Sorted (· ≤ ·) dofs →
          reduce_system A b dofs vals = Except.error VemError.invalidArgument
          ∧ set_boundary_conditions A b dofs vals
            = Except.error VemError.invalidArgument) := by
  by_cases h : is_sorted dofs = true
  · have hs : List.Sorted (· ≤ ·) dofs := (is_sorted_iff dofs).mp h
    refine ⟨?_, ?_, ?_⟩
    · rw [reduce_system]
      simp [h, hs]
    · rw [set_boundary_conditions]
      simp [h, hs]
    · intro hc
      exact absurd hs hc
  · have hs : ¬ List.Sorted (· ≤ ·) dofs := fun hc =>
      h ((is_sorted_iff dofs).mpr hc)
    refine ⟨?_, ?_, ?_⟩
    · rw [reduce_system]
      simp [h, hs]
    · rw [set_boundary_conditions]
      simp [h, hs]
    · intro _
      rw [reduce_system, set_boundary_conditions]
      simp [h]

/-! ## Claim C7 -/

theorem star_go_iters_le (ns cs : List ℚ) (N : ℕ) :
    ∀ fuel pt count i, (star_go ns cs N fuel pt count i).2.2 ≤ i + fuel := by
  intro fuel
  induction fuel with
  | zero =>
    intro pt count i
    simp [star_go]
  | succ fuel ih =>
    intro pt count i
    rw [star_go]
    by_cases h : (if (star_step ns cs N pt i).2 then count else 0) + 1 = N
    · simp only [h, if_true]
      omega
    · simp only [h, if_false]
      exact le_trans (ih _ _ _) (by omega)

theorem star_go_exhaust (ns cs : List ℚ) (N : ℕ) :
    ∀ fuel pt count i, (star_go ns cs N fuel pt count i).2.1 ≠ N →
      (star_go ns cs N fuel pt count i).2.2 = i + fuel := by
  intro fuel
  induction fuel with
  | zero =>
    intro pt count i _
    simp [star_go]
  | succ fuel ih =>
    intro pt count i h
    rw [star_go] at h ⊢
    by_cases hc : (if (star_step ns cs N pt i).2 then count else 0) + 1 = N
    · simp only [hc, if_true] at h
      exact absurd rfl h
    · simp only [hc, if_false] at h ⊢
      rw [ih _ _ _ h]
      omega

theorem star_go_early_exit (ns cs : List ℚ) (N : ℕ) (hN : N = ns.length / 3) :
    ∀ fuel pt count i, is_star_point pt ns cs = true → count < N →
      N - count ≤ fuel →
      star_go ns cs N fuel pt count i = (pt, N, i + (N - count)) := by
  intro fuel
  induction fuel with
  | zero =>
    intro pt count i _ hc hf
    omega
  | succ fuel ih =>
    intro pt count i hstar hc hf
    have hbehind : is_behind_face pt (ns.drop (3 * (i % N)))
        (cs.drop (3 * (i % N))) = true := by
      have hmod : i % N < N := Nat.mod_lt _ (by omega)
      rw [is_star_point, List.all_eq_true] at hstar
      exact hstar (i % N) (by rw [List.mem_range]; omega)
    have hstep : star_step ns cs N pt i = (pt, true) := by
      rw [star_step]
      simp [hbehind]
    rw [star_go, hstep]
    simp only [if_true]
    by_cases hdone : count + 1 = N
    · simp only [hdone, if_true]
      have e : N - count = 1 := by omega
      rw [e]
    · simp only [hdone, if_false]
      have hrec := ih pt (count + 1) (i + 1) hstar (by omega) (by omega)
      rw [hrec]
      have e : i + 1 + (N - (count + 1)) = i + (N - count) := by omega
      rw [e]

/-- C7: the star-point search runs for at most `20 * num_faces` iterations;
from any state whose candidate point is behind all faces it terminates within
the `num_faces` consecutive behind-reports needed to reach the convergence
counter (returning that point unchanged); and it throws the runtime
(geometric-degeneracy) error exactly when the iteration budget is exhausted
without the convergence counter having reached `num_faces`. -/
theorem C7_star_point_search (ns cs point : List ℚ) (N : ℕ)
    (hN : N = ns.length / 3) :
    ((star_go ns cs N (20 * N) point 0 0).2.2 ≤ 20 * N)
      ∧ (∀ fuel pt count i, is_star_point pt ns cs = true → count < N →
          N - count ≤ fuel →
          star_go ns cs N fuel pt count i = (pt, N, i + (N - count)))
      ∧ ((∃ e, identify_star_point point ns cs = Except.error e)
          ↔ ((star_go ns cs N (20*N) point 0 0).2.1 ≠ N
            ∧ (star_go ns cs N (20*N) point 0 0).2.2 = 20 * N)) := by
  refine ⟨by simpa using star_go_iters_le ns cs N (20*N) point 0 0,
    star_go_early_exit ns cs N hN, ?_⟩
  rw [identify_star_point]
  simp only [← hN]
  by_cases h : (star_go ns cs N (20 * N) point 0 0).2.1 = N
  · simp [h]
  · have hex := star_go_exhaust ns cs N (20*N) point 0 0 h
    simp [h, hex]

/-- Witness for C7 at a concrete single-face configuration whose starting
point is already a star point. -/
theorem C7_star_point_search_witness :
    ((1:ℕ) = ([0,0,1] : List ℚ).length / 3)
      ∧ is_star_point [0,0,-1] [0,0,1] [0,0,0] = true
      ∧ star_go [0,0,1] [0,0,0] 1 20 [0,0,-1] 0 0 = ([0,0,-1], 1, 0 + (1 - 0)) := by
  refine ⟨by decide, by decide, ?_⟩
  exact (C7_star_point_search [0,0,1] [0,0,0] [0,0,-1] 1 (by decide)).2.1
    20 [0,0,-1] 0 0 (by decide) (by decide) (by decide)

/-! ## Claim C6 -/

/-- C6: the global orientation check of the cell geometry engine computes the
average of the face centroids, forms the vectors from this average to each
face centroid, and classifies the cell as having inward-pointing normals
exactly when the sum of the dot products of these vectors with the face
normals is negative; a cell so classified triggers the fatal assertion
(a distinguished assertion-failure outcome), and otherwise the computed
normals are passed through unmodified (never flipped). -/
theorem C6_orientation_check (sqrt : ℚ → ℚ) (points : List ℚ)
    (num_points : ℕ) (faces : List ℕ) (num_face_edges : List ℕ)
    (num_faces : ℕ) :
    (inward_pointing_normals
        (cell_face_geometry sqrt points faces num_face_edges num_faces).1
        (cell_face_geometry sqrt points faces num_face_edges num_faces).2
        = true
      ↔ (∑ i ∈ Finset.range
          ((cell_face_geometry sqrt points faces num_face_edges
            num_faces).1.length / 3), ∑ d ∈ Finset.range 3,
          (gq (cell_face_geometry sqrt points faces num_face_edges
              num_faces).2 (3*i + d)
            - gq (point_average 3
                (cell_face_geometry sqrt points faces num_face_edges
                  num_faces).2
                ((cell_face_geometry sqrt points faces num_face_edges
                  num_faces).1.length / 3)) d)
            * gq (cell_face_geometry sqrt points faces num_face_edges
              num_faces).1 (3*i + d)) < 0)
    ∧ (compute_cell_geometry sqrt points num_points faces num_face_edges
          num_faces = Except.error VemError.assertionFailure
        ↔ inward_pointing_normals
            (cell_face_geometry sqrt points faces num_face_edges num_faces).1
            (cell_face_geometry sqrt points faces num_face_edges num_faces).2
          = true)
    ∧ (∀ g, compute_cell_geometry sqrt points num_points faces num_face_edges
          num_faces = Except.ok g →
        g.outward_normals
          = (cell_face_geometry sqrt points faces num_face_edges
            num_faces).1) := by
  refine ⟨?_, ?_, ?_⟩
  · have e : rsum ((cell_face_geometry sqrt points faces num_face_edges
          num_faces).1.length / 3) (fun i =>
        rsum 3 (fun d => (gq (cell_face_geometry sqrt points faces
            num_face_edges num_faces).2 (3*i + d)
          - gq (point_average 3 (cell_face_geometry sqrt points faces
              num_face_edges num_faces).2
            ((cell_face_geometry sqrt points faces num_face_edges
              num_faces).1.length / 3)) d)
          * gq (cell_face_geometry sqrt points faces num_face_edges
            num_faces).1 (3*i + d)))
        = ∑ i ∈ Finset.range ((cell_face_geometry sqrt points faces
            num_face_edges num_faces).1.length / 3), ∑ d ∈ Finset.range 3,
          (gq (cell_face_geometry sqrt points faces num_face_edges
              num_faces).2 (3*i + d)
            - gq (point_average 3 (cell_face_geometry sqrt points faces
                num_face_edges num_faces).2
              ((cell_face_geometry sqrt points faces num_face_edges
                num_faces).1.length / 3)) d)
            * gq (cell_face_geometry sqrt points faces num_face_edges
              num_faces).1 (3*i + d) := by
      rw [rsum_eq_sum]
      exact Finset.sum_congr rfl (fun i _ => rsum_eq_sum 3 _)
    rw [inward_pointing_normals, decide_eq_true_eq, e]
  · rw [compute_cell_geometry]
    by_cases h : inward_pointing_normals
        (cell_face_geometry sqrt points faces num_face_edges num_faces).1
        (cell_face_geometry sqrt points faces num_face_edges num_faces).2
        = true
    · simp [h]
    · simp only [h, Bool.false_eq_true, if_false]
      constructor
      · intro hc
        rcases hid : identify_star_point
            (point_average 3 points num_points)
            (cell_face_geometry sqrt points faces num_face_edges num_faces).1
            (cell_face_geometry sqrt points faces num_face_edges
              num_faces).2 with e | v
        · rw [hid] at hc
          rw [identify_star_point] at hid
          by_cases h2 : (star_go
              (cell_face_geometry sqrt points faces num_face_edges
                num_faces).1
              (cell_face_geometry sqrt points faces num_face_edges
                num_faces).2
              ((cell_face_geometry sqrt points faces num_face_edges
                num_faces).1.length / 3)
              (20 * ((cell_face_geometry sqrt points faces num_face_edges
                num_faces).1.length / 3))
              (point_average 3 points num_points) 0 0).2.1
              = (cell_face_geometry sqrt points faces num_face_edges
                num_faces).1.length / 3
          · simp [h2] at hid
          · simp only [h2, if_false] at hid
            simp only [Except.bind] at hc
            injection hid with hid2
            rw [← hid2] at hc
            exact absurd (Except.error.injEq _ _ ▸ hc) (by simp)
        · rw [hid] at hc
          simp [Except.bind] at hc
      · intro hc
        simp at hc
  · intro g hg
    rw [compute_cell_geometry] at hg
    by_cases h : inward_pointing_normals
        (cell_face_geometry sqrt points faces num_face_edges num_faces).1
        (cell_face_geometry sqrt points faces num_face_edges num_faces).2
        = true
    · rw [if_pos h] at hg
      exact absurd hg (by simp)
    · rw [if_neg (by simpa using h)] at hg
      rcases hid : identify_star_point (point_average 3 points num_points)
          (cell_face_geometry sqrt points faces num_face_edges num_faces).1
          (cell_face_geometry sqrt points faces num_face_edges num_faces).2
          with e | v
      · rw [hid] at hg
        simp [Except.bind] at hg
      · rw [hid] at hg
        simp only [Except.bind] at hg
        injection hg with hg2
        rw [← hg2]

set_option maxRecDepth 100000 in
set_option maxHeartbeats 4000000 in
theorem C6_orientation_check_witness :
    normals_of (compute_cell_geometry sqrtW brickPoints 8 brickFaceCorners
        brickNumFaceCorners 6)
      = some ((cell_face_geometry sqrtW brickPoints brickFaceCorners
        brickNumFaceCorners 6).1) := by
  have h3 := (C6_orientation_check sqrtW brickPoints 8 brickFaceCorners
    brickNumFaceCorners 6).2.2
  have hok : (compute_cell_geometry sqrtW brickPoints 8 brickFaceCorners
      brickNumFaceCorners 6).isOk = true := by decide
  rcases he : compute_cell_geometry sqrtW brickPoints 8 brickFaceCorners
      brickNumFaceCorners 6 with e | g
  · rw [he] at hok
    exact absurd hok (by simp [Except.isOk, Except.toBool])
  · simp only [normals_of]
    rw [h3 g he]

/-! ## Claim C2 -/

theorem cooSum_cons (t : Triplet) (l : List Triplet) (i j : ℕ) :
    cooSum (t :: l) i j
      = (if t.1 = i ∧ t.2.1 = j then t.2.2 else 0) + cooSum l i j := by
  by_cases h : t.1 = i ∧ t.2.1 = j
  · simp [cooSum, List.filter_cons, h]
  · simp [cooSum, List.filter_cons, h]

theorem cooSum_all_one (i j : ℕ) (l : List Triplet)
    (h : ∀ t ∈ l, t.1 = i → t.2.1 = j → t.2.2 = 1) :
    cooSum l i j
      = ((l.filter (fun t => t.1 = i ∧ t.2.1 = j)).length : ℚ) := by
  induction l with
  | nil => simp [cooSum]
  | cons t l ih =>
    rw [cooSum_cons, ih (fun s hs h1 h2 => h s (List.mem_cons_of_mem t hs) h1 h2)]
    by_cases ht : t.1 = i ∧ t.2.1 = j
    · rw [if_pos ht, h t (List.mem_cons_self t l) ht.1 ht.2, List.filter_cons,
        if_pos (by simpa using ht), List.length_cons]
      push_cast
      ring
    · rw [if_neg ht, List.filter_cons, if_neg (by simpa using ht), zero_add]

theorem cooSum_all_zero (i j : ℕ) (l : List Triplet)
    (h : ∀ t ∈ l, t.1 = i → t.2.1 = j → t.2.2 = 0) :
    cooSum l i j = 0 := by
  induction l with
  | nil => simp [cooSum]
  | cons t l ih =>
    rw [cooSum_cons,
      ih (fun s hs h1 h2 => h s (List.mem_cons_of_mem t hs) h1 h2), add_zero]
    by_cases ht : t.1 = i ∧ t.2.1 = j
    · rw [if_pos ht]
      exact h t (List.mem_cons_self t l) ht.1 ht.2
    · rw [if_neg ht]

theorem filter_coords_length (i j : ℕ) (l : List Triplet) :
    ∀ m : List Triplet,
      l.map (fun t => (t.1, t.2.1)) = m.map (fun t => (t.1, t.2.1)) →
      (l.filter (fun t => t.1 = i ∧ t.2.1 = j)).length
        = (m.filter (fun t => t.1 = i ∧ t.2.1 = j)).length := by
  induction l with
  | nil =>
    intro m h
    cases m with
    | nil => rfl
    | cons c m => simp at h
  | cons a l ih =>
    intro m h
    cases m with
    | nil => simp at h
    | cons c m =>
      simp only [List.map_cons, List.cons.injEq] at h
      have hpair := h.1
      rw [Prod.mk.injEq] at hpair
      have h1 : a.1 = c.1 := hpair.1
      have h2 : a.2.1 = c.2.1 := hpair.2
      rw [List.filter_cons, List.filter_cons]
      by_cases hp : a.1 = i ∧ a.2.1 = j
      · have hq : c.1 = i ∧ c.2.1 = j := ⟨h1 ▸ hp.1, h2 ▸ hp.2⟩
        rw [if_pos (by simpa using hp), if_pos (by simpa using hq),
          List.length_cons, List.length_cons, ih m h.2]
      · have hq : ¬ (c.1 = i ∧ c.2.1 = j) := by
          rw [← h1, ← h2]
          exact hp
        rw [if_neg (by simpa using hp), if_neg (by simpa using hq), ih m h.2]

theorem map_coords_of_preserving (f : Triplet → Triplet)
    (hf : ∀ t, (f t).1 = t.1 ∧ (f t).2.1 = t.2.1) (l : List Triplet) :
    (l.map f).map (fun t => (t.1, t.2.1)) = l.map (fun t => (t.1, t.2.1)) := by
  rw [List.map_map]
  apply List.map_congr_left
  intro t _
  simp only [Function.comp]
  rw [Prod.mk.injEq]
  exact hf t

theorem elim_foldl_coords (z : Bool) (dv : List (ℕ × ℚ)) :
    ∀ st : List Triplet × List ℚ × Option ℕ,
      ((dv.foldl (elim_step z) st).1.map (fun t => (t.1, t.2.1))
          = st.1.map (fun t => (t.1, t.2.1)))
        ∧ (dv.foldl (elim_step z) st).2.1.length = st.2.1.length := by
  induction dv with
  | nil => exact fun st => ⟨rfl, rfl⟩
  | cons p dv ih =>
    intro st
    rw [List.foldl_cons]
    have hstep1 : (elim_step z st p).1.map (fun t => (t.1, t.2.1))
        = st.1.map (fun t => (t.1, t.2.1)) := by
      rw [elim_step]
      by_cases h : st.2.2 = some p.1
      · rw [if_pos h]
      · rw [if_neg h]
        cases z with
        | false => rfl
        | true =>
          simp only [if_true]
          exact map_coords_of_preserving _
            (fun t => by by_cases ht : t.2.1 = p.1 <;> simp [ht]) st.1
    have hstep2 : (elim_step z st p).2.1.length = st.2.1.length := by
      rw [elim_step]
      by_cases h : st.2.2 = some p.1
      · rw [if_pos h]
      · rw [if_neg h]
        exact foldl_length_invariant _
          (fun a x => by
            by_cases hx : x.2.1 = p.1
            · simp [hx, addAt_length]
            · simp [hx]) st.1 st.2.1
    refine ⟨?_, ?_⟩
    · rw [(ih (elim_step z st p)).1, hstep1]
    · rw [(ih (elim_step z st p)).2, hstep2]

theorem foldl_set_range_getD (g : ℕ → ℕ) (v : ℕ → ℚ) (l : List ℚ) :
    ∀ n : ℕ, (∀ a c, a < n → c < n → g a = g c → a = c) →
      (∀ a, a < n → g a < l.length) →
      ∀ i, i < n →
        ((List.range n).foldl (fun bb k => bb.set (g k) (v k)) l).getD
          (g i) 0 = v i := by
  intro n
  induction n with
  | zero => omega
  | succ m ih =>
    intro hinj hlt i hi
    rw [List.range_succ, List.foldl_append, List.foldl_cons, List.foldl_nil]
    have hlen : ((List.range m).foldl
        (fun bb k => bb.set (g k) (v k)) l).length = l.length :=
      foldl_length_invariant _ (fun a x => List.length_set a _ _) _ l
    by_cases him : i = m
    · subst him
      rw [getD_set, if_pos ⟨rfl, by rw [hlen]; exact hlt i hi⟩]
    · have hne : g m ≠ g i := fun hq =>
        him (hinj i m hi (by omega) hq.symm)
      rw [getD_set, if_neg (fun hc => hne hc.1)]
      exact ih (fun a c ha hc hq => hinj a c (by omega) (by omega) hq)
        (fun a ha => hlt a (by omega)) i (by omega)

/-- C2 (counterexample): with a duplicated diagonal entry stored for a fixed
dof, the summed coordinate-format value of the modified matrix at that
diagonal position after `set_boundary_conditions` is the number of stored
entries (here 2), not 1 as claimed. -/
theorem C2_counterexample :
    ¬ cooSumOfResult (set_boundary_conditions
        [((0:ℕ), (0:ℕ), (5:ℚ)), (0, 0, 7)] [3] [0] [2]) 0 0 = some 1 := by
  decide

/-- C2 (amended): for ascending in-range fixed dofs,
`set_boundary_conditions` succeeds, keeps the number of stored triplets and
the length of the right-hand side unchanged, rewrites every stored entry in
a fixed row or column to 1 on the diagonal and 0 off it — so the summed
coordinate-format value at a fixed diagonal position `(d, d)` equals the
NUMBER of entries stored there (1 only when that entry is stored exactly
once), while every other summed entry of row `d` and column `d` is 0 — and
sets the right-hand side at each fixed dof to its prescribed value. -/
theorem C2_boundary_conditions (A : List Triplet) (b : List ℚ)
    (dofs : List ℕ) (vals : List ℚ)
    (hs : List.Sorted (· < ·) dofs)
    (hr : ∀ d ∈ dofs, d < b.length) :
    (set_boundary_conditions A b dofs vals).isOk = true
    ∧ (bcA (set_boundary_conditions A b dofs vals)).length = A.length
    ∧ (bcB (set_boundary_conditions A b dofs vals)).length = b.length
    ∧ (∀ d ∈ dofs,
        cooSum (bcA (set_boundary_conditions A b dofs vals)) d d
          = ((A.filter (fun t => t.1 = d ∧ t.2.1 = d)).length : ℚ)
        ∧ ∀ e, e ≠ d →
            cooSum (bcA (set_boundary_conditions A b dofs vals)) d e = 0
            ∧ cooSum (bcA (set_boundary_conditions A b dofs vals)) e d = 0)
    ∧ (∀ i, i < dofs.length →
        (bcB (set_boundary_conditions A b dofs vals)).getD (gn dofs i) 0
          = gq vals i) := by
  have hsd : is_sorted dofs = true :=
    (is_sorted_iff dofs).mpr (hs.imp (fun h => le_of_lt h))
  have hmain : set_boundary_conditions A b dofs vals
      = Except.ok (
          (elim_cols true ((List.range dofs.length).map (fun i =>
            (gn dofs i, gq vals i))) (sort_by_col A) b).1.map (fun t =>
            if (dofs.contains t.1 || decide (b.length ≤ t.1))
                || (dofs.contains t.2.1 || decide (b.length ≤ t.2.1)) then
              if t.1 = t.2.1 then (t.1, t.2.1, (1:ℚ))
              else (t.1, t.2.1, (0:ℚ))
            else t),
          (List.range dofs.length).foldl (fun bb i =>
            bb.set (gn dofs i) (gq vals i))
            (elim_cols true ((List.range dofs.length).map (fun i =>
              (gn dofs i, gq vals i))) (sort_by_col A) b).2) := by
    rw [set_boundary_conditions, if_neg (not_not_intro hsd)]
  have hco : (elim_cols true ((List.range dofs.length).map (fun i =>
        (gn dofs i, gq vals i))) (sort_by_col A) b).1.map (fun t =>
        (t.1, t.2.1))
      = (sort_by_col A).map (fun t => (t.1, t.2.1)) :=
    (elim_foldl_coords true _ (sort_by_col A, b, none)).1
  have hbl : (elim_cols true ((List.range dofs.length).map (fun i =>
        (gn dofs i, gq vals i))) (sort_by_col A) b).2.length = b.length :=
    (elim_foldl_coords true _ (sort_by_col A, b, none)).2
  have hperm : List.Perm (sort_by_col A) A := List.perm_insertionSort _ A
  have hfpres : ∀ t : Triplet,
      ((if (dofs.contains t.1 || decide (b.length ≤ t.1))
          || (dofs.contains t.2.1 || decide (b.length ≤ t.2.1)) then
        if t.1 = t.2.1 then (t.1, t.2.1, (1:ℚ)) else (t.1, t.2.1, (0:ℚ))
      else t) : Triplet).1 = t.1
      ∧ ((if (dofs.contains t.1 || decide (b.length ≤ t.1))
          || (dofs.contains t.2.1 || decide (b.length ≤ t.2.1)) then
        if t.1 = t.2.1 then (t.1, t.2.1, (1:ℚ)) else (t.1, t.2.1, (0:ℚ))
      else t) : Triplet).2.1 = t.2.1 := by
    intro t
    by_cases h1 : ((dofs.contains t.1 || decide (b.length ≤ t.1))
        || (dofs.contains t.2.1 || decide (b.length ≤ t.2.1))) = true
    · rw [if_pos h1]
      by_cases h2 : t.1 = t.2.1
      · rw [if_pos h2]
        exact ⟨rfl, rfl⟩
      · rw [if_neg h2]
        exact ⟨rfl, rfl⟩
    · rw [if_neg h1]
      exact ⟨rfl, rfl⟩
  refine ⟨?_, ?_, ?_, ?_, ?_⟩
  · rw [hmain]
    rfl
  · rw [hmain]
    simp only [bcA, List.length_map]
    have := congrArg List.length hco
    simp only [List.length_map] at this
    rw [this, hperm.length_eq]
  · rw [hmain]
    simp only [bcB]
    rw [foldl_length_invariant _ (fun a x => List.length_set a _ _) _ _, hbl]
  · intro d hd
    have hdc : dofs.contains d = true := List.elem_iff.mpr hd
    have hAeq : bcA (set_boundary_conditions A b dofs vals)
        = (elim_cols true ((List.range dofs.length).map (fun i =>
            (gn dofs i, gq vals i))) (sort_by_col A) b).1.map (fun t =>
            if (dofs.contains t.1 || decide (b.length ≤ t.1))
                || (dofs.contains t.2.1 || decide (b.length ≤ t.2.1)) then
              if t.1 = t.2.1 then (t.1, t.2.1, (1:ℚ))
              else (t.1, t.2.1, (0:ℚ))
            else t) := by
      rw [hmain]
      rfl
    refine ⟨?_, ?_⟩
    · rw [hAeq, cooSum_all_one d d _ ?_]
      · have hm1 : ((elim_cols true ((List.range dofs.length).map (fun i =>
              (gn dofs i, gq vals i))) (sort_by_col A) b).1.map (fun t =>
              if (dofs.contains t.1 || decide (b.length ≤ t.1))
                  || (dofs.contains t.2.1 || decide (b.length ≤ t.2.1)) then
                if t.1 = t.2.1 then (t.1, t.2.1, (1:ℚ))
                else (t.1, t.2.1, (0:ℚ))
              else t)).map (fun t => (t.1, t.2.1))
            = (elim_cols true ((List.range dofs.length).map (fun i =>
              (gn dofs i, gq vals i))) (sort_by_col A) b).1.map (fun t =>
              (t.1, t.2.1)) := map_coords_of_preserving _ hfpres _
        rw [filter_coords_length d d _ _ hm1,
          filter_coords_length d d _ _ hco, (hperm.filter _).length_eq]
      · intro t ht h1 h2
        rcases List.mem_map.mp ht with ⟨s, hsmem, hst⟩
        have hs1 : s.1 = d := by rw [← (hfpres s).1, hst, h1]
        have hs2 : s.2.1 = d := by rw [← (hfpres s).2, hst, h2]
        rw [← hst]
        rw [if_pos (by rw [hs1, hdc]; simp), if_pos (by rw [hs1, hs2])]
    · intro e hed
      refine ⟨?_, ?_⟩
      · rw [hAeq, cooSum_all_zero d e]
        intro t ht h1 h2
        rcases List.mem_map.mp ht with ⟨s, hsmem, hst⟩
        have hs1 : s.1 = d := by rw [← (hfpres s).1, hst, h1]
        have hs2 : s.2.1 = e := by rw [← (hfpres s).2, hst, h2]
        rw [← hst]
        rw [if_pos (by rw [hs1, hdc]; simp),
          if_neg (by rw [hs1, hs2]; exact fun hq => hed hq.symm)]
      · rw [hAeq, cooSum_all_zero e d]
        intro t ht h1 h2
        rcases List.mem_map.mp ht with ⟨s, hsmem, hst⟩
        have hs1 : s.1 = e := by rw [← (hfpres s).1, hst, h1]
        have hs2 : s.2.1 = d := by rw [← (hfpres s).2, hst, h2]
        rw [← hst]
        rw [if_pos (by rw [hs2, hdc]; simp),
          if_neg (by rw [hs1, hs2]; exact hed)]
  · intro i hi
    have hBeq : bcB (set_boundary_conditions A b dofs vals)
        = (List.range dofs.length).foldl (fun bb k =>
            bb.set (gn dofs k) (gq vals k))
            (elim_cols true ((List.range dofs.length).map (fun k =>
              (gn dofs k, gq vals k))) (sort_by_col A) b).2 := by
      rw [hmain]
      rfl
    rw [hBeq]
    apply foldl_set_range_getD (gn dofs) (gq vals) _ dofs.length ?_ ?_ i hi
    · intro a c ha hc hq
      have e1 : gn dofs a = dofs.get ⟨a, ha⟩ := by
        rw [gn, List.getD_eq_getElem _ _ ha]
        rfl
      have e2 : gn dofs c = dofs.get ⟨c, hc⟩ := by
        rw [gn, List.getD_eq_getElem _ _ hc]
        rfl
      have hget : dofs.get ⟨a, ha⟩ = dofs.get ⟨c, hc⟩ := by
        rw [← e1, ← e2, hq]
      exact congrArg Fin.val (hs.get_strictMono.injective hget)
    · intro a ha
      rw [hbl]
      apply hr
      rw [gn, List.getD_eq_getElem _ _ ha]
      exact List.getElem_mem _

theorem C2_boundary_conditions_witness :
    List.Sorted (fun a c => a < c) ([0] : List ℕ)
    ∧ (∀ d ∈ ([0] : List ℕ), d < ([3] : List ℚ).length)
    ∧ cooSum (bcA (set_boundary_conditions
        [((0:ℕ), (0:ℕ), (5:ℚ)), (0, 0, 7)] [3] [0] [2])) 0 0
      = ((([((0:ℕ), (0:ℕ), (5:ℚ)), (0, 0, 7)] : List Triplet).filter
          (fun t => t.1 = 0 ∧ t.2.1 = 0)).length : ℚ)
    ∧ (bcB (set_boundary_conditions
        [((0:ℕ), (0:ℕ), (5:ℚ)), (0, 0, 7)] [3] [0] [2])).getD (gn [0] 0) 0
      = gq [2] 0 := by
  refine ⟨by decide, by decide, ?_, ?_⟩
  · exact ((C2_boundary_conditions [(0, 0, 5), (0, 0, 7)] [3] [0] [2]
      (by decide) (by decide)).2.2.2.1 0 (by decide)).1
  · exact (C2_boundary_conditions [(0, 0, 5), (0, 0, 7)] [3] [0] [2]
      (by decide) (by decide)).2.2.2.2 0 (by decide)

/-! ## Claim C5 -/

theorem rsum_succ (n : ℕ) (f : ℕ → ℚ) : rsum (n + 1) f = rsum n f + f n := by
  rw [rsum_eq_sum, rsum_eq_sum, Finset.sum_range_succ]

theorem rsum_two (f : ℕ → ℚ) : rsum 2 f = f 0 + f 1 := by
  rw [show (2:ℕ) = 1 + 1 from rfl, rsum_succ, show (1:ℕ) = 0 + 1 from rfl,
    rsum_succ, show rsum 0 f = 0 from rfl, zero_add]

theorem rsum_three (f : ℕ → ℚ) : rsum 3 f = f 0 + f 1 + f 2 := by
  rw [show (3:ℕ) = 2 + 1 from rfl, rsum_succ, rsum_two]

theorem rsum_cycle (n : ℕ) (g : ℕ → ℚ) :
    rsum n (fun i => g ((i + 1) % n)) = rsum n g := by
  cases n with
  | zero => rfl
  | succ m =>
    rw [rsum_eq_sum, rsum_eq_sum, Finset.sum_range_succ,
      Finset.sum_range_succ']
    rw [Nat.mod_self]
    rw [add_comm (∑ i ∈ Finset.range m, g (i + 1)) (g 0)]
    rw [add_comm (∑ i ∈ Finset.range m, g ((i + 1) % (m + 1))) (g 0)]
    congr 1
    apply Finset.sum_congr rfl
    intro i hi
    have hi2 : i + 1 < m + 1 := by
      have := Finset.mem_range.mp hi
      omega
    rw [Nat.mod_eq_of_lt hi2]

theorem mod_cycle_inverse (n i : ℕ) (hi : i < n) :
    ((i + 1) % n + n - 1) % n = i := by
  rcases Nat.lt_or_ge (i + 1) n with h | h
  · rw [Nat.mod_eq_of_lt h]
    have e : i + 1 + n - 1 = i + n := by omega
    rw [e, Nat.add_mod_right, Nat.mod_eq_of_lt hi]
  · have e : i + 1 = n := by omega
    rw [e, Nat.mod_self]
    have e2 : 0 + n - 1 = i := by omega
    rw [e2, Nat.mod_eq_of_lt hi]

theorem mod_cycle_forward (n k : ℕ) (hk : k < n) :
    ((k + n - 1) % n + 1) % n = k := by
  rcases Nat.eq_zero_or_pos k with h0 | h0
  · subst h0
    have e : 0 + n - 1 = n - 1 := by omega
    rw [e, Nat.mod_eq_of_lt (show n - 1 < n by omega)]
    have e2 : n - 1 + 1 = n := by omega
    rw [e2, Nat.mod_self]
  · have e : k + n - 1 = (k - 1) + n := by omega
    rw [e, Nat.add_mod_right, Nat.mod_eq_of_lt (show k - 1 < n by omega)]
    have e2 : k - 1 + 1 = k := by omega
    rw [e2, Nat.mod_eq_of_lt hk]

theorem rsum_eq_single (n k : ℕ) (w : ℕ → ℚ) (p : ℕ → Prop)
    [DecidablePred p] (hk : k < n) (hpk : p k)
    (huniq : ∀ i, i < n → p i → i = k) :
    rsum n (fun i => if p i then w i else 0) = w k := by
  rw [rsum_eq_sum, Finset.sum_eq_single k]
  · rw [if_pos hpk]
  · intro i hi hne
    rw [if_neg (fun hp => hne (huniq i (Finset.mem_range.mp hi) hp))]
  · intro hk2
    exact absurd (Finset.mem_range.mpr hk) hk2

theorem rsum_pair (n : ℕ) (g : ℕ → ℚ) :
    rsum (2 * n) g = rsum n (fun i => g (2 * i) + g (2 * i + 1)) := by
  induction n with
  | zero => rfl
  | succ m ih =>
    have e : 2 * (m + 1) = (2 * m + 1) + 1 := by ring
    rw [e, rsum_succ, rsum_succ, rsum_succ, ih]
    ring

theorem foldl_addAt_getD (ix : ℕ → ℕ) (vl : ℕ → ℚ) (l : List ℚ) (j : ℕ)
    (hj : j < l.length) (m : ℕ) :
    ((List.range m).foldl (fun acc c => addAt acc (ix c) (vl c)) l).getD j 0
      = l.getD j 0 + rsum m (fun c => if ix c = j then vl c else 0) := by
  induction m with
  | zero =>
    show l.getD j 0 = l.getD j 0 + 0
    rw [add_zero]
  | succ m ih =>
    rw [List.range_succ, List.foldl_append, List.foldl_cons, List.foldl_nil,
      rsum_succ]
    have hlen : ((List.range m).foldl
        (fun acc c => addAt acc (ix c) (vl c)) l).length = l.length :=
      foldl_length_invariant _ (fun a x => addAt_length a _ _) _ l
    rw [getD_addAt, hlen, ih]
    by_cases h : ix m = j
    · rw [if_pos ⟨h, hj⟩, if_pos h]
      ring
    · rw [if_neg (fun hc => h hc.1), if_neg h, add_zero]

theorem foldl_addAt2_getD (ix : ℕ → ℕ → ℕ) (vl : ℕ → ℕ → ℚ) (k : ℕ)
    (l : List ℚ) (j : ℕ) (hj : j < l.length) (m : ℕ) :
    ((List.range m).foldl (fun acc c => (List.range k).foldl
        (fun a2 d => addAt a2 (ix c d) (vl c d)) acc) l).getD j 0
      = l.getD j 0
        + rsum m (fun c => rsum k (fun d => if ix c d = j then vl c d
            else 0)) := by
  induction m with
  | zero =>
    show l.getD j 0 = l.getD j 0 + 0
    rw [add_zero]
  | succ m ih =>
    rw [List.range_succ, List.foldl_append, List.foldl_cons, List.foldl_nil,
      rsum_succ]
    have hlen : ((List.range m).foldl (fun acc c => (List.range k).foldl
        (fun a2 d => addAt a2 (ix c d) (vl c d)) acc) l).length
        = l.length := by
      apply foldl_length_invariant
      intro a x
      exact foldl_length_invariant _ (fun a2 y => addAt_length a2 _ _) _ a
    rw [foldl_addAt_getD (ix m) (vl m) _ j (by rw [hlen]; exact hj) k, ih]
    ring

theorem rsum_two_ite (a k d0 : ℕ) (hd : d0 < 2) (w : ℕ → ℚ) :
    rsum 2 (fun d => if 2 * a + d = 2 * k + d0 then w d else 0)
      = if a = k then w d0 else 0 := by
  rw [rsum_two]
  by_cases hik : a = k
  · subst hik
    rw [if_pos (rfl : a = a)]
    rcases (show d0 = 0 ∨ d0 = 1 by omega) with h0 | h0
    · subst h0
      rw [if_pos (show 2 * a + 0 = 2 * a + 0 from rfl),
        if_neg (show ¬ (2 * a + 1 = 2 * a + 0) by omega), add_zero]
    · subst h0
      rw [if_neg (show ¬ (2 * a + 0 = 2 * a + 1) by omega),
        if_pos (show 2 * a + 1 = 2 * a + 1 from rfl), zero_add]
  · rw [if_neg hik,
      if_neg (show ¬ (2 * a + 0 = 2 * k + d0) by omega),
      if_neg (show ¬ (2 * a + 1 = 2 * k + d0) by omega), add_zero]

theorem rsum_three_ite (a k d0 : ℕ) (hd : d0 < 3) (w : ℕ → ℚ) :
    rsum 3 (fun d => if 3 * a + d = 3 * k + d0 then w d else 0)
      = if a = k then w d0 else 0 := by
  rw [rsum_three]
  by_cases hik : a = k
  · subst hik
    rw [if_pos (rfl : a = a)]
    rcases (show d0 = 0 ∨ d0 = 1 ∨ d0 = 2 by omega) with h0 | h0 | h0
    · subst h0
      rw [if_pos (show 3 * a + 0 = 3 * a + 0 from rfl),
        if_neg (show ¬ (3 * a + 1 = 3 * a + 0) by omega),
        if_neg (show ¬ (3 * a + 2 = 3 * a + 0) by omega),
        add_zero, add_zero]
    · subst h0
      rw [if_neg (show ¬ (3 * a + 0 = 3 * a + 1) by omega),
        if_pos (show 3 * a + 1 = 3 * a + 1 from rfl),
        if_neg (show ¬ (3 * a + 2 = 3 * a + 1) by omega),
        zero_add, add_zero]
    · subst h0
      rw [if_neg (show ¬ (3 * a + 0 = 3 * a + 2) by omega),
        if_neg (show ¬ (3 * a + 1 = 3 * a + 2) by omega),
        if_pos (show 3 * a + 2 = 3 * a + 2 from rfl),
        zero_add, zero_add]
  · rw [if_neg hik,
      if_neg (show ¬ (3 * a + 0 = 3 * k + d0) by omega),
      if_neg (show ¬ (3 * a + 1 = 3 * k + d0) by omega),
      if_neg (show ¬ (3 * a + 2 = 3 * k + d0) by omega),
      add_zero, add_zero]

/-- C5 (counterexample): on a degenerate pentagon the face integral does
not attribute the areas of triangles `2 c` and `2 c + 1` to corner `c` as
the specification asserts: weighting corner 0 alone gives 6 under the code
but 12 under the specified attribution. -/
theorem C5_counterexample :
    ¬ face_integral_impl 2 sqrtW pentCorners 5 (some [1, 0, 0, 0, 0])
      = spec_corner_attribution 2 sqrtW pentCorners 5 [1, 0, 0, 0, 0] := by
  decide

/-- C5 (amended): the tessellation of an `n`-cornered face (not skipped)
produces `2 n` triangles with the pair at positions `2 c` and `2 c + 1`
built on corner `c` (centroid, corner `c`, edge midpoint; and centroid,
edge midpoint, corner `(c+1) % n`) — this half of the claim holds; but the
downstream consumers attribute to corner `c` the areas (resp. tributary
volumes) of triangles `2 c` and `2 ((c + n - 1) % n) + 1` — the odd
triangle cyclically preceding `2 c` — not triangles `2 c` and `2 c + 1`:
the face integral weights triangle `2 c + 1` by the value at corner
`(c + 1) % n`, and the 2D and 3D body-force loops scatter accordingly. -/
theorem C5_corner_attribution (dim : ℕ) (sqrt : ℚ → ℚ) (corners : List ℚ)
    (n : ℕ) (v : List ℚ) (c : ℕ) (hc : c < n)
    (points : List ℚ) (cell_corners : List ℕ) (bforce target : List ℚ)
    (k d2 : ℕ) (hk : k < n) (hd2 : d2 < 2)
    (hjt : 2 * k + d2 < target.length)
    (points3 : List ℚ) (face_corners3 num_face_corners3 : List ℕ)
    (centroid bforce3 bg : List ℚ) (c3 d3 : ℕ)
    (hc3 : c3 < gn num_face_corners3 0) (hd3 : d3 < 3)
    (hinj : ∀ a, a < gn num_face_corners3 0 →
      ∀ e, e < gn num_face_corners3 0 →
        gn face_corners3 a = gn face_corners3 e → a = e)
    (hjb : 3 * gn face_corners3 c3 + d3 < bg.length) :
    ((tessellate_face dim sqrt corners n false).length = 2 * n)
    ∧ (tessellate_face dim sqrt corners n false).getD (2 * c) []
        = face_centroid dim sqrt corners n
          ++ (corners.drop (dim * c)).take dim
          ++ pointmean dim (corners.drop (dim * c))
            (corners.drop (dim * ((c + 1) % n)))
    ∧ (tessellate_face dim sqrt corners n false).getD (2 * c + 1) []
        = face_centroid dim sqrt corners n
          ++ pointmean dim (corners.drop (dim * c))
            (corners.drop (dim * ((c + 1) % n)))
          ++ (corners.drop (dim * ((c + 1) % n))).take dim
    ∧ face_integral_impl dim sqrt corners n (some v)
        = rsum n (fun i => gq v i
            * (triarea dim sqrt ((tessellate_face dim sqrt corners n false).getD (2 * i) [])
                (((tessellate_face dim sqrt corners n false).getD (2 * i) []).drop dim)
                (((tessellate_face dim sqrt corners n false).getD (2 * i) []).drop (2 * dim))
              + triarea dim sqrt ((tessellate_face dim sqrt corners n false).getD (2 * ((i + n - 1) % n) + 1) [])
                (((tessellate_face dim sqrt corners n false).getD (2 * ((i + n - 1) % n) + 1) []).drop dim)
                (((tessellate_face dim sqrt corners n false).getD (2 * ((i + n - 1) % n) + 1) []).drop (2 * dim))))
    ∧ (compute_bodyforce_2D sqrt points cell_corners n bforce
          target).getD (2 * k + d2) 0
        = target.getD (2 * k + d2) 0 + gq bforce d2
            * (triarea 2 sqrt ((tessellate_face 2 sqrt (pick_points 2 points cell_corners n) n false).getD (2 * k) [])
                (((tessellate_face 2 sqrt (pick_points 2 points cell_corners n) n false).getD (2 * k) []).drop 2)
                (((tessellate_face 2 sqrt (pick_points 2 points cell_corners n) n false).getD (2 * k) []).drop 4)
              + triarea 2 sqrt ((tessellate_face 2 sqrt (pick_points 2 points cell_corners n) n false).getD (2 * ((k + n - 1) % n) + 1) [])
                (((tessellate_face 2 sqrt (pick_points 2 points cell_corners n) n false).getD (2 * ((k + n - 1) % n) + 1) []).drop 2)
                (((tessellate_face 2 sqrt (pick_points 2 points cell_corners n) n false).getD (2 * ((k + n - 1) % n) + 1) []).drop 4))
    ∧ (compute_bodyforce_3D sqrt points3 face_corners3 num_face_corners3 1
          centroid bforce3 bg).getD (3 * gn face_corners3 c3 + d3) 0
        = bg.getD (3 * gn face_corners3 c3 + d3) 0
          + (tetrahedron_volume ((tessellate_face 3 sqrt (pick_points 3 points3 face_corners3 (gn num_face_corners3 0)) (gn num_face_corners3 0) false).getD (2 * c3) [])
              (((tessellate_face 3 sqrt (pick_points 3 points3 face_corners3 (gn num_face_corners3 0)) (gn num_face_corners3 0) false).getD (2 * c3) []).drop 3)
              (((tessellate_face 3 sqrt (pick_points 3 points3 face_corners3 (gn num_face_corners3 0)) (gn num_face_corners3 0) false).getD (2 * c3) []).drop 6) centroid
            + tetrahedron_volume
              ((tessellate_face 3 sqrt (pick_points 3 points3 face_corners3 (gn num_face_corners3 0)) (gn num_face_corners3 0) false).getD (2 * ((c3 + gn num_face_corners3 0 - 1)
                % gn num_face_corners3 0) + 1) [])
              (((tessellate_face 3 sqrt (pick_points 3 points3 face_corners3 (gn num_face_corners3 0)) (gn num_face_corners3 0) false).getD (2 * ((c3 + gn num_face_corners3 0 - 1)
                % gn num_face_corners3 0) + 1) []).drop 3)
              (((tessellate_face 3 sqrt (pick_points 3 points3 face_corners3 (gn num_face_corners3 0)) (gn num_face_corners3 0) false).getD (2 * ((c3 + gn num_face_corners3 0 - 1)
                % gn num_face_corners3 0) + 1) []).drop 6) centroid)
            * gq bforce3 d3 := by
  refine ⟨?_, ?_, ?_, ?_, ?_, ?_⟩
  · exact length_flatMap_pair
      (fun c0 => face_centroid dim sqrt corners n
        ++ (corners.drop (dim * c0)).take dim
        ++ pointmean dim (corners.drop (dim * c0))
          (corners.drop (dim * ((c0 + 1) % n))))
      (fun c0 => face_centroid dim sqrt corners n
        ++ pointmean dim (corners.drop (dim * c0))
          (corners.drop (dim * ((c0 + 1) % n)))
        ++ (corners.drop (dim * ((c0 + 1) % n))).take dim) n
  · exact (getD_flatMap_pair
      (fun c0 => face_centroid dim sqrt corners n
        ++ (corners.drop (dim * c0)).take dim
        ++ pointmean dim (corners.drop (dim * c0))
          (corners.drop (dim * ((c0 + 1) % n))))
      (fun c0 => face_centroid dim sqrt corners n
        ++ pointmean dim (corners.drop (dim * c0))
          (corners.drop (dim * ((c0 + 1) % n)))
        ++ (corners.drop (dim * ((c0 + 1) % n))).take dim) n c [] hc).1
  · exact (getD_flatMap_pair
      (fun c0 => face_centroid dim sqrt corners n
        ++ (corners.drop (dim * c0)).take dim
        ++ pointmean dim (corners.drop (dim * c0))
          (corners.drop (dim * ((c0 + 1) % n))))
      (fun c0 => face_centroid dim sqrt corners n
        ++ pointmean dim (corners.drop (dim * c0))
          (corners.drop (dim * ((c0 + 1) % n)))
        ++ (corners.drop (dim * ((c0 + 1) % n))).take dim) n c [] hc).2
  · have hL : face_integral_impl dim sqrt corners n (some v)
        = rsum n (fun i =>
            triarea dim sqrt ((tessellate_face dim sqrt corners n false).getD (2 * i) [])
              (((tessellate_face dim sqrt corners n false).getD (2 * i) []).drop dim)
              (((tessellate_face dim sqrt corners n false).getD (2 * i) []).drop (2 * dim)) * gq v i
            + triarea dim sqrt ((tessellate_face dim sqrt corners n false).getD (2 * i + 1) [])
              (((tessellate_face dim sqrt corners n false).getD (2 * i + 1) []).drop dim)
              (((tessellate_face dim sqrt corners n false).getD (2 * i + 1) []).drop (2 * dim))
              * gq v ((i + 1) % n)) := rfl
    rw [hL, rsum_add]
    have hR : rsum n (fun i => gq v i
        * (triarea dim sqrt ((tessellate_face dim sqrt corners n false).getD (2 * i) [])
            (((tessellate_face dim sqrt corners n false).getD (2 * i) []).drop dim)
            (((tessellate_face dim sqrt corners n false).getD (2 * i) []).drop (2 * dim))
          + triarea dim sqrt ((tessellate_face dim sqrt corners n false).getD (2 * ((i + n - 1) % n) + 1) [])
            (((tessellate_face dim sqrt corners n false).getD (2 * ((i + n - 1) % n) + 1) []).drop dim)
            (((tessellate_face dim sqrt corners n false).getD (2 * ((i + n - 1) % n) + 1) []).drop (2 * dim))))
        = rsum n (fun i => gq v i
            * triarea dim sqrt ((tessellate_face dim sqrt corners n false).getD (2 * i) [])
              (((tessellate_face dim sqrt corners n false).getD (2 * i) []).drop dim)
              (((tessellate_face dim sqrt corners n false).getD (2 * i) []).drop (2 * dim)))
          + rsum n (fun i => gq v i
            * triarea dim sqrt ((tessellate_face dim sqrt corners n false).getD (2 * ((i + n - 1) % n) + 1) [])
              (((tessellate_face dim sqrt corners n false).getD (2 * ((i + n - 1) % n) + 1) []).drop dim)
              (((tessellate_face dim sqrt corners n false).getD (2 * ((i + n - 1) % n) + 1) []).drop (2 * dim))) := by
      rw [← rsum_add]
      exact rsum_congr _ _ _ (fun i hi => by ring)
    rw [hR]
    have hfirst : rsum n (fun i =>
        triarea dim sqrt ((tessellate_face dim sqrt corners n false).getD (2 * i) [])
          (((tessellate_face dim sqrt corners n false).getD (2 * i) []).drop dim)
          (((tessellate_face dim sqrt corners n false).getD (2 * i) []).drop (2 * dim)) * gq v i)
        = rsum n (fun i => gq v i
          * triarea dim sqrt ((tessellate_face dim sqrt corners n false).getD (2 * i) [])
            (((tessellate_face dim sqrt corners n false).getD (2 * i) []).drop dim)
            (((tessellate_face dim sqrt corners n false).getD (2 * i) []).drop (2 * dim))) :=
      rsum_congr _ _ _ (fun i hi => mul_comm _ _)
    have hsecond : rsum n (fun i =>
        triarea dim sqrt ((tessellate_face dim sqrt corners n false).getD (2 * i + 1) [])
          (((tessellate_face dim sqrt corners n false).getD (2 * i + 1) []).drop dim)
          (((tessellate_face dim sqrt corners n false).getD (2 * i + 1) []).drop (2 * dim)) * gq v ((i + 1) % n))
        = rsum n (fun i => gq v i
          * triarea dim sqrt ((tessellate_face dim sqrt corners n false).getD (2 * ((i + n - 1) % n) + 1) [])
            (((tessellate_face dim sqrt corners n false).getD (2 * ((i + n - 1) % n) + 1) []).drop dim)
            (((tessellate_face dim sqrt corners n false).getD (2 * ((i + n - 1) % n) + 1) []).drop (2 * dim))) := by
      rw [← rsum_cycle n (fun c0 => gq v c0
        * triarea dim sqrt ((tessellate_face dim sqrt corners n false).getD (2 * ((c0 + n - 1) % n) + 1) [])
          (((tessellate_face dim sqrt corners n false).getD (2 * ((c0 + n - 1) % n) + 1) []).drop dim)
          (((tessellate_face dim sqrt corners n false).getD (2 * ((c0 + n - 1) % n) + 1) []).drop (2 * dim)))]
      exact rsum_congr _ _ _ (fun i hi => by
        rw [mod_cycle_inverse n i hi]
        exact mul_comm _ _)
    rw [hfirst, hsecond]
  · have h3 : (compute_bodyforce_2D sqrt points cell_corners n bforce
          target).getD (2 * k + d2) 0
        = target.getD (2 * k + d2) 0
          + rsum (2 * n) (fun c0 => rsum 2 (fun d =>
              if 2 * ((c0 / 2 + c0 % 2) % n) + d = 2 * k + d2 then
                gq bforce d * triarea 2 sqrt ((tessellate_face 2 sqrt (pick_points 2 points cell_corners n) n false).getD c0 [])
                  (((tessellate_face 2 sqrt (pick_points 2 points cell_corners n) n false).getD c0 []).drop 2)
                  (((tessellate_face 2 sqrt (pick_points 2 points cell_corners n) n false).getD c0 []).drop 4)
              else 0)) :=
      foldl_addAt2_getD (fun c0 d => 2 * ((c0 / 2 + c0 % 2) % n) + d)
        (fun c0 d => gq bforce d * triarea 2 sqrt ((tessellate_face 2 sqrt (pick_points 2 points cell_corners n) n false).getD c0 [])
          (((tessellate_face 2 sqrt (pick_points 2 points cell_corners n) n false).getD c0 []).drop 2)
          (((tessellate_face 2 sqrt (pick_points 2 points cell_corners n) n false).getD c0 []).drop 4))
        2 target (2 * k + d2) hjt (2 * n)
    rw [h3, rsum_pair]
    have hcong : rsum n (fun i =>
        rsum 2 (fun d =>
          if 2 * ((2 * i / 2 + 2 * i % 2) % n) + d = 2 * k + d2 then
            gq bforce d * triarea 2 sqrt ((tessellate_face 2 sqrt (pick_points 2 points cell_corners n) n false).getD (2 * i) [])
              (((tessellate_face 2 sqrt (pick_points 2 points cell_corners n) n false).getD (2 * i) []).drop 2)
              (((tessellate_face 2 sqrt (pick_points 2 points cell_corners n) n false).getD (2 * i) []).drop 4)
          else 0)
        + rsum 2 (fun d =>
          if 2 * (((2 * i + 1) / 2 + (2 * i + 1) % 2) % n) + d
              = 2 * k + d2 then
            gq bforce d * triarea 2 sqrt ((tessellate_face 2 sqrt (pick_points 2 points cell_corners n) n false).getD (2 * i + 1) [])
              (((tessellate_face 2 sqrt (pick_points 2 points cell_corners n) n false).getD (2 * i + 1) []).drop 2)
              (((tessellate_face 2 sqrt (pick_points 2 points cell_corners n) n false).getD (2 * i + 1) []).drop 4)
          else 0))
        = rsum n (fun i =>
          (if i = k then gq bforce d2 * triarea 2 sqrt ((tessellate_face 2 sqrt (pick_points 2 points cell_corners n) n false).getD (2 * i) [])
            (((tessellate_face 2 sqrt (pick_points 2 points cell_corners n) n false).getD (2 * i) []).drop 2)
            (((tessellate_face 2 sqrt (pick_points 2 points cell_corners n) n false).getD (2 * i) []).drop 4) else 0)
          + (if (i + 1) % n = k then gq bforce d2
            * triarea 2 sqrt ((tessellate_face 2 sqrt (pick_points 2 points cell_corners n) n false).getD (2 * i + 1) [])
              (((tessellate_face 2 sqrt (pick_points 2 points cell_corners n) n false).getD (2 * i + 1) []).drop 2)
              (((tessellate_face 2 sqrt (pick_points 2 points cell_corners n) n false).getD (2 * i + 1) []).drop 4) else 0)) :=
      rsum_congr _ _ _ (fun i hi => by
        have e1 : 2 * i / 2 + 2 * i % 2 = i := by omega
        have e2 : (2 * i + 1) / 2 + (2 * i + 1) % 2 = i + 1 := by omega
        simp only [e1, e2, Nat.mod_eq_of_lt hi]
        rw [rsum_two_ite i k d2 hd2, rsum_two_ite ((i + 1) % n) k d2 hd2])
    rw [hcong, rsum_add]
    rw [rsum_eq_single n k _ (fun i => i = k) hk rfl (fun i _ hp => hp)]
    rw [rsum_eq_single n ((k + n - 1) % n) _ (fun i => (i + 1) % n = k)
      (Nat.mod_lt _ (show 0 < n by omega)) (mod_cycle_forward n k hk)
      (fun i hi hp => by
        rw [← hp]
        exact (mod_cycle_inverse n i hi).symm)]
    ring
  · have h4 : (compute_bodyforce_3D sqrt points3 face_corners3
          num_face_corners3 1 centroid bforce3 bg).getD
          (3 * gn face_corners3 c3 + d3) 0
        = bg.getD (3 * gn face_corners3 c3 + d3) 0
          + rsum (gn num_face_corners3 0) (fun c0 => rsum 3 (fun d =>
              if 3 * gn face_corners3 (0 + c0) + d
                  = 3 * gn face_corners3 c3 + d3 then
                (tetrahedron_volume ((tessellate_face 3 sqrt (pick_points 3 points3 face_corners3 (gn num_face_corners3 0)) (gn num_face_corners3 0) false).getD (2 * c0) [])
                    (((tessellate_face 3 sqrt (pick_points 3 points3 face_corners3 (gn num_face_corners3 0)) (gn num_face_corners3 0) false).getD (2 * c0) []).drop 3)
                    (((tessellate_face 3 sqrt (pick_points 3 points3 face_corners3 (gn num_face_corners3 0)) (gn num_face_corners3 0) false).getD (2 * c0) []).drop 6) centroid
                  + tetrahedron_volume
                    (if c0 = 0 then (tessellate_face 3 sqrt (pick_points 3 points3 face_corners3 (gn num_face_corners3 0)) (gn num_face_corners3 0) false).getD ((tessellate_face 3 sqrt (pick_points 3 points3 face_corners3 (gn num_face_corners3 0)) (gn num_face_corners3 0) false).length - 1) []
                      else (tessellate_face 3 sqrt (pick_points 3 points3 face_corners3 (gn num_face_corners3 0)) (gn num_face_corners3 0) false).getD (2 * c0 - 1) [])
                    ((if c0 = 0 then (tessellate_face 3 sqrt (pick_points 3 points3 face_corners3 (gn num_face_corners3 0)) (gn num_face_corners3 0) false).getD ((tessellate_face 3 sqrt (pick_points 3 points3 face_corners3 (gn num_face_corners3 0)) (gn num_face_corners3 0) false).length - 1) []
                      else (tessellate_face 3 sqrt (pick_points 3 points3 face_corners3 (gn num_face_corners3 0)) (gn num_face_corners3 0) false).getD (2 * c0 - 1) []).drop 3)
                    ((if c0 = 0 then (tessellate_face 3 sqrt (pick_points 3 points3 face_corners3 (gn num_face_corners3 0)) (gn num_face_corners3 0) false).getD ((tessellate_face 3 sqrt (pick_points 3 points3 face_corners3 (gn num_face_corners3 0)) (gn num_face_corners3 0) false).length - 1) []
                      else (tessellate_face 3 sqrt (pick_points 3 points3 face_corners3 (gn num_face_corners3 0)) (gn num_face_corners3 0) false).getD (2 * c0 - 1) []).drop 6) centroid)
                  * gq bforce3 d
              else 0)) :=
      foldl_addAt2_getD (fun c0 d => 3 * gn face_corners3 (0 + c0) + d)
        (fun c0 d => (tetrahedron_volume ((tessellate_face 3 sqrt (pick_points 3 points3 face_corners3 (gn num_face_corners3 0)) (gn num_face_corners3 0) false).getD (2 * c0) [])
            (((tessellate_face 3 sqrt (pick_points 3 points3 face_corners3 (gn num_face_corners3 0)) (gn num_face_corners3 0) false).getD (2 * c0) []).drop 3)
            (((tessellate_face 3 sqrt (pick_points 3 points3 face_corners3 (gn num_face_corners3 0)) (gn num_face_corners3 0) false).getD (2 * c0) []).drop 6) centroid
          + tetrahedron_volume
            (if c0 = 0 then (tessellate_face 3 sqrt (pick_points 3 points3 face_corners3 (gn num_face_corners3 0)) (gn num_face_corners3 0) false).getD ((tessellate_face 3 sqrt (pick_points 3 points3 face_corners3 (gn num_face_corners3 0)) (gn num_face_corners3 0) false).length - 1) []
              else (tessellate_face 3 sqrt (pick_points 3 points3 face_corners3 (gn num_face_corners3 0)) (gn num_face_corners3 0) false).getD (2 * c0 - 1) [])
            ((if c0 = 0 then (tessellate_face 3 sqrt (pick_points 3 points3 face_corners3 (gn num_face_corners3 0)) (gn num_face_corners3 0) false).getD ((tessellate_face 3 sqrt (pick_points 3 points3 face_corners3 (gn num_face_corners3 0)) (gn num_face_corners3 0) false).length - 1) []
              else (tessellate_face 3 sqrt (pick_points 3 points3 face_corners3 (gn num_face_corners3 0)) (gn num_face_corners3 0) false).getD (2 * c0 - 1) []).drop 3)
            ((if c0 = 0 then (tessellate_face 3 sqrt (pick_points 3 points3 face_corners3 (gn num_face_corners3 0)) (gn num_face_corners3 0) false).getD ((tessellate_face 3 sqrt (pick_points 3 points3 face_corners3 (gn num_face_corners3 0)) (gn num_face_corners3 0) false).length - 1) []
              else (tessellate_face 3 sqrt (pick_points 3 points3 face_corners3 (gn num_face_corners3 0)) (gn num_face_corners3 0) false).getD (2 * c0 - 1) []).drop 6) centroid)
          * gq bforce3 d)
        3 bg (3 * gn face_corners3 c3 + d3) hjb (gn num_face_corners3 0)
    rw [h4]
    have hcong3 : rsum (gn num_face_corners3 0) (fun c0 => rsum 3 (fun d =>
        if 3 * gn face_corners3 (0 + c0) + d
            = 3 * gn face_corners3 c3 + d3 then
          (tetrahedron_volume ((tessellate_face 3 sqrt (pick_points 3 points3 face_corners3 (gn num_face_corners3 0)) (gn num_face_corners3 0) false).getD (2 * c0) [])
              (((tessellate_face 3 sqrt (pick_points 3 points3 face_corners3 (gn num_face_corners3 0)) (gn num_face_corners3 0) false).getD (2 * c0) []).drop 3)
              (((tessellate_face 3 sqrt (pick_points 3 points3 face_corners3 (gn num_face_corners3 0)) (gn num_face_corners3 0) false).getD (2 * c0) []).drop 6) centroid
            + tetrahedron_volume
              (if c0 = 0 then (tessellate_face 3 sqrt (pick_points 3 points3 face_corners3 (gn num_face_corners3 0)) (gn num_face_corners3 0) false).getD ((tessellate_face 3 sqrt (pick_points 3 points3 face_corners3 (gn num_face_corners3 0)) (gn num_face_corners3 0) false).length - 1) []
                else (tessellate_face 3 sqrt (pick_points 3 points3 face_corners3 (gn num_face_corners3 0)) (gn num_face_corners3 0) false).getD (2 * c0 - 1) [])
              ((if c0 = 0 then (tessellate_face 3 sqrt (pick_points 3 points3 face_corners3 (gn num_face_corners3 0)) (gn num_face_corners3 0) false).getD ((tessellate_face 3 sqrt (pick_points 3 points3 face_corners3 (gn num_face_corners3 0)) (gn num_face_corners3 0) false).length - 1) []
                else (tessellate_face 3 sqrt (pick_points 3 points3 face_corners3 (gn num_face_corners3 0)) (gn num_face_corners3 0) false).getD (2 * c0 - 1) []).drop 3)
              ((if c0 = 0 then (tessellate_face 3 sqrt (pick_points 3 points3 face_corners3 (gn num_face_corners3 0)) (gn num_face_corners3 0) false).getD ((tessellate_face 3 sqrt (pick_points 3 points3 face_corners3 (gn num_face_corners3 0)) (gn num_face_corners3 0) false).length - 1) []
                else (tessellate_face 3 sqrt (pick_points 3 points3 face_corners3 (gn num_face_corners3 0)) (gn num_face_corners3 0) false).getD (2 * c0 - 1) []).drop 6) centroid)
            * gq bforce3 d
        else 0))
        = rsum (gn num_face_corners3 0) (fun c0 =>
          if gn face_corners3 c0 = gn face_corners3 c3 then
            (tetrahedron_volume ((tessellate_face 3 sqrt (pick_points 3 points3 face_corners3 (gn num_face_corners3 0)) (gn num_face_corners3 0) false).getD (2 * c0) [])
                (((tessellate_face 3 sqrt (pick_points 3 points3 face_corners3 (gn num_face_corners3 0)) (gn num_face_corners3 0) false).getD (2 * c0) []).drop 3)
                (((tessellate_face 3 sqrt (pick_points 3 points3 face_corners3 (gn num_face_corners3 0)) (gn num_face_corners3 0) false).getD (2 * c0) []).drop 6) centroid
              + tetrahedron_volume
                (if c0 = 0 then (tessellate_face 3 sqrt (pick_points 3 points3 face_corners3 (gn num_face_corners3 0)) (gn num_face_corners3 0) false).getD ((tessellate_face 3 sqrt (pick_points 3 points3 face_corners3 (gn num_face_corners3 0)) (gn num_face_corners3 0) false).length - 1) []
                  else (tessellate_face 3 sqrt (pick_points 3 points3 face_corners3 (gn num_face_corners3 0)) (gn num_face_corners3 0) false).getD (2 * c0 - 1) [])
                ((if c0 = 0 then (tessellate_face 3 sqrt (pick_points 3 points3 face_corners3 (gn num_face_corners3 0)) (gn num_face_corners3 0) false).getD ((tessellate_face 3 sqrt (pick_points 3 points3 face_corners3 (gn num_face_corners3 0)) (gn num_face_corners3 0) false).length - 1) []
                  else (tessellate_face 3 sqrt (pick_points 3 points3 face_corners3 (gn num_face_corners3 0)) (gn num_face_corners3 0) false).getD (2 * c0 - 1) []).drop 3)
                ((if c0 = 0 then (tessellate_face 3 sqrt (pick_points 3 points3 face_corners3 (gn num_face_corners3 0)) (gn num_face_corners3 0) false).getD ((tessellate_face 3 sqrt (pick_points 3 points3 face_corners3 (gn num_face_corners3 0)) (gn num_face_corners3 0) false).length - 1) []
                  else (tessellate_face 3 sqrt (pick_points 3 points3 face_corners3 (gn num_face_corners3 0)) (gn num_face_corners3 0) false).getD (2 * c0 - 1) []).drop 6) centroid)
              * gq bforce3 d3
          else 0) :=
      rsum_congr _ _ _ (fun c0 hc0 => by
        simp only [Nat.zero_add]
        rw [rsum_three_ite (gn face_corners3 c0) (gn face_corners3 c3)
          d3 hd3])
    rw [hcong3]
    rw [rsum_eq_single (gn num_face_corners3 0) c3 _
      (fun c0 => gn face_corners3 c0 = gn face_corners3 c3) hc3 rfl
      (fun i hi hp => hinj i hi c3 hc3 hp)]
    have hlen3 : (tessellate_face 3 sqrt (pick_points 3 points3 face_corners3 (gn num_face_corners3 0)) (gn num_face_corners3 0) false).length = 2 * gn num_face_corners3 0 :=
      length_flatMap_pair _ _ _
    have ht2 : (if c3 = 0 then (tessellate_face 3 sqrt (pick_points 3 points3 face_corners3 (gn num_face_corners3 0)) (gn num_face_corners3 0) false).getD ((tessellate_face 3 sqrt (pick_points 3 points3 face_corners3 (gn num_face_corners3 0)) (gn num_face_corners3 0) false).length - 1) []
          else (tessellate_face 3 sqrt (pick_points 3 points3 face_corners3 (gn num_face_corners3 0)) (gn num_face_corners3 0) false).getD (2 * c3 - 1) [])
        = (tessellate_face 3 sqrt (pick_points 3 points3 face_corners3 (gn num_face_corners3 0)) (gn num_face_corners3 0) false).getD (2 * ((c3 + gn num_face_corners3 0 - 1)
          % gn num_face_corners3 0) + 1) [] := by
      by_cases h0 : c3 = 0
      · subst h0
        rw [if_pos rfl, hlen3]
        have e1 : 0 + gn num_face_corners3 0 - 1
            = gn num_face_corners3 0 - 1 := by omega
        rw [e1, Nat.mod_eq_of_lt (show gn num_face_corners3 0 - 1
          < gn num_face_corners3 0 by omega)]
        have e2 : 2 * gn num_face_corners3 0 - 1
            = 2 * (gn num_face_corners3 0 - 1) + 1 := by omega
        rw [e2]
      · rw [if_neg h0]
        have e1 : c3 + gn num_face_corners3 0 - 1
            = (c3 - 1) + gn num_face_corners3 0 := by omega
        rw [e1, Nat.add_mod_right, Nat.mod_eq_of_lt (show c3 - 1
          < gn num_face_corners3 0 by omega)]
        have e2 : 2 * c3 - 1 = 2 * (c3 - 1) + 1 := by omega
        rw [e2]
    rw [ht2]

theorem C5_corner_attribution_witness :
    ((1:ℕ) < 4 ∧ (2:ℕ) < 4 ∧ (1:ℕ) < 2
      ∧ 2 * 2 + 1 < (List.replicate 8 (0:ℚ)).length
      ∧ (1:ℕ) < gn brickNumFaceCorners 0 ∧ (2:ℕ) < 3
      ∧ 3 * gn brickFaceCorners 1 + 2 < (List.replicate 24 (0:ℚ)).length)
    ∧ (tessellate_face 2 sqrtW rectPoints 4 false).length = 2 * 4 := by
  refine ⟨by decide, ?_⟩
  exact (C5_corner_attribution 2 sqrtW rectPoints 4 [1, 0, 0, 0] 1
    (by decide) rectPoints [0, 1, 2, 3] [1, 2] (List.replicate 8 0) 2 1
    (by decide) (by decide) (by decide) brickPoints brickFaceCorners
    brickNumFaceCorners [22, 117/2, 120] [1, 1, 1] (List.replicate 24 0)
    1 2 (by decide) (by decide) (by decide) (by decide)).1

/-! ## Claim C10 -/

theorem length_filter_not (p : ℕ → Bool) (l : List ℕ) :
    (l.filter (fun k => !(p k))).length = l.length - (l.filter p).length := by
  induction l with
  | nil => rfl
  | cons a l ih =>
    rw [List.filter_cons, List.filter_cons]
    have hle : (l.filter p).length ≤ l.length := List.length_filter_le _ _
    by_cases h : p a = true
    · have hn : (!(p a)) = false := by rw [h]; rfl
      rw [if_neg (by rw [hn]; exact Bool.false_ne_true), if_pos h,
        List.length_cons, List.length_cons, ih]
      omega
    · have hh : p a = false := Bool.eq_false_iff.mpr h
      have hn : (!(p a)) = true := by rw [hh]; rfl
      rw [if_pos hn, if_neg h, List.length_cons, List.length_cons, ih]
      omega

theorem filter_mem_length (m : ℕ) (dofs : List ℕ) (hnd : dofs.Nodup)
    (hin : ∀ d ∈ dofs, d < m) :
    ((List.range m).filter (fun k => dofs.contains k)).length
      = dofs.length := by
  have hperm : List.Perm ((List.range m).filter
      (fun k => dofs.contains k)) dofs := by
    apply (List.perm_ext_iff_of_nodup ((List.nodup_range m).filter _)
      hnd).mpr
    intro a
    rw [List.mem_filter, List.mem_range]
    constructor
    · rintro ⟨_, hcont⟩
      exact List.elem_iff.mp hcont
    · intro ha
      exact ⟨hin a ha, List.elem_iff.mpr ha⟩
  exact hperm.length_eq

theorem filter_not_contains_length (m : ℕ) (dofs : List ℕ)
    (hnd : dofs.Nodup) (hin : ∀ d ∈ dofs, d < m) :
    ((List.range m).filter (fun k => !(dofs.contains k))).length
      = m - dofs.length := by
  rw [length_filter_not (fun k => dofs.contains k) (List.range m),
    List.length_range, filter_mem_length m dofs hnd hin]

theorem set_bc_ok_blen (A : List Triplet) (b : List ℚ) (dofs : List ℕ)
    (vals : List ℚ) (p : List Triplet × List ℚ)
    (hok : set_boundary_conditions A b dofs vals = Except.ok p) :
    p.2.length = b.length := by
  have hbl : (elim_cols true ((List.range dofs.length).map (fun i =>
      (gn dofs i, gq vals i))) (sort_by_col A) b).2.length = b.length :=
    (elim_foldl_coords true _ (sort_by_col A, b, none)).2
  by_cases hsd : is_sorted dofs = true
  · rw [set_boundary_conditions, if_neg (not_not_intro hsd)] at hok
    injection hok with h
    rw [← h]
    show ((List.range dofs.length).foldl (fun bb i =>
        bb.set (gn dofs i) (gq vals i))
        (elim_cols true ((List.range dofs.length).map (fun i =>
          (gn dofs i, gq vals i))) (sort_by_col A) b).2).length = b.length
    rw [foldl_length_invariant _ (fun a x => List.length_set a _ _) _ _, hbl]
  · rw [set_boundary_conditions, if_pos hsd] at hok
    exact absurd hok (by simp)

theorem reduce_ok_blen (A : List Triplet) (b : List ℚ) (dofs : List ℕ)
    (vals : List ℚ) (p : List Triplet × List ℚ) (hnd : dofs.Nodup)
    (hin : ∀ d ∈ dofs, d < b.length)
    (hok : reduce_system A b dofs vals = Except.ok p) :
    p.2.length = b.length - dofs.length := by
  have hbl : (elim_cols false ((List.range dofs.length).map (fun i =>
      (gn dofs i, gq vals i))) (sort_by_col A) b).2.length = b.length :=
    (elim_foldl_coords false _ (sort_by_col A, b, none)).2
  by_cases hsd : is_sorted dofs = true
  · rw [reduce_system, if_neg (not_not_intro hsd)] at hok
    injection hok with h
    rw [← h]
    show (((List.range (elim_cols false ((List.range dofs.length).map
        (fun i => (gn dofs i, gq vals i))) (sort_by_col A) b).2.length).filter
        (fun k => !(dofs.contains k))).map (fun k =>
          gq (elim_cols false ((List.range dofs.length).map (fun i =>
            (gn dofs i, gq vals i))) (sort_by_col A) b).2 k)).length
      = b.length - dofs.length
    rw [List.length_map, hbl]
    exact filter_not_contains_length b.length dofs hnd hin
  · rw [reduce_system, if_pos hsd] at hok
    exact absurd hok (by simp)

theorem bc_dispatch_blen (A : List Triplet) (b : List ℚ) (dofs : List ℕ)
    (vals : List ℚ) (rb : Bool) (L : ℕ) (hbl : b.length = L)
    (hnd : dofs.Nodup) (hr : ∀ d ∈ dofs, d < L)
    (p : List Triplet × List ℚ)
    (hp : (if rb then reduce_system A b dofs vals
        else set_boundary_conditions A b dofs vals) = Except.ok p) :
    p.2.length = if rb then L - dofs.length else L := by
  cases rb with
  | false =>
    rw [if_neg (Bool.false_ne_true)] at hp
    rw [if_neg (Bool.false_ne_true), set_bc_ok_blen A b dofs vals p hp, hbl]
  | true =>
    rw [if_pos rfl] at hp
    rw [if_pos rfl,
      reduce_ok_blen A b dofs vals p hnd (fun d hd => by
        rw [hbl]; exact hr d hd) hp, hbl]

theorem ret_eq_blen_map (e : Except VemError (List Triplet × List ℚ))
    (n : ℕ) (h : ∀ p, e = Except.ok p → p.2.length = n) :
    ret_eq_blen (e.map (fun p => (p.1, p.2, p.2.length))) n := by
  rcases he : e with err | p
  · exact trivial
  · exact ⟨rfl, h p he⟩

theorem ret_eq_blen_bind (X : Except VemError (List Triplet × List ℚ))
    (g : List Triplet × List ℚ → Except VemError (List Triplet × List ℚ × ℕ))
    (n : ℕ) (h : ∀ st, X = Except.ok st → ret_eq_blen (g st) n) :
    ret_eq_blen (X.bind g) n := by
  rcases hX : X with e | st
  · exact trivial
  · exact h st hX

theorem foldlM_b_length
    (f : List Triplet × List ℚ → ℕ → Except VemError (List Triplet × List ℚ))
    (hf : ∀ st a r, f st a = Except.ok r → r.2.length = st.2.length) :
    ∀ (l : List ℕ) (init st : List Triplet × List ℚ),
      l.foldlM f init = Except.ok st → st.2.length = init.2.length := by
  intro l
  induction l with
  | nil =>
    intro init st h
    rw [List.foldlM_nil] at h
    injection h with h2
    rw [← h2]
  | cons a l ih =>
    intro init st h
    rw [List.foldlM_cons] at h
    rcases hfa : f init a with e | s
    · rw [hfa] at h
      cases h
    · rw [hfa] at h
      have h2 : l.foldlM f s = Except.ok st := h
      rw [ih s st h2, hf init a s hfa]

theorem compute_bodyforce_3D_length (sqrt : ℚ → ℚ) (points : List ℚ)
    (face_corners num_face_corners : List ℕ) (num_faces : ℕ)
    (centroid bforce b_global : List ℚ) :
    (compute_bodyforce_3D sqrt points face_corners num_face_corners
      num_faces centroid bforce b_global).length = b_global.length := by
  exact foldl_length_invariant _ (fun a f => by
    exact foldl_length_invariant _ (fun a2 c => by
      exact foldl_length_invariant _ (fun a3 d => addAt_length _ _ _) _ _)
      _ _) _ b_global

theorem compute_applied_forces_3D_length (sqrt : ℚ → ℚ) (points : List ℚ)
    (num_face_corners face_corners : List ℕ) (num_neumann_faces : ℕ)
    (neumann_faces : List ℕ) (neumann_forces : List ℚ) (b_global : List ℚ) :
    (compute_applied_forces_3D sqrt points num_face_corners face_corners
      num_neumann_faces neumann_faces neumann_forces b_global).length
      = b_global.length := by
  exact foldl_length_invariant _ (fun a f => by
    exact foldl_length_invariant _ (fun a2 c => by
      exact foldl_length_invariant _ (fun a3 d => addAt_length _ _ _) _ _)
      _ _) _ b_global

/-- C10: the integer returned as last component by the 2D and 3D global
assembly is the length of the final right-hand side; for distinct in-range
fixed dofs this length is `Dim * num_points - num_fixed_dofs` when
`reduce_boundary` is set and `Dim * num_points` otherwise, where
`num_points` is one plus the largest corner index referenced by the
connectivity arrays. -/
theorem C10_return_value (sqrt cbrt : ℚ → ℚ) (points : List ℚ)
    (num_cells : ℕ) (num_cell_faces cell_corners : List ℕ)
    (young poisson body_force : List ℚ) (dofs2 : List ℕ) (vals2 : List ℚ)
    (num_neumann_faces : ℕ) (neumann_faces : List ℕ)
    (neumann_forces : List ℚ) (sc : StabilityChoice) (rb2 : Bool)
    (points3 : List ℚ) (num_cells3 : ℕ)
    (num_cell_faces3 num_face_corners3 face_corners3 : List ℕ)
    (young3 poisson3 body_force3 : List ℚ) (dofs3 : List ℕ)
    (vals3 : List ℚ) (num_neumann_faces3 : ℕ) (neumann_faces3 : List ℕ)
    (neumann_forces3 : List ℚ) (sc3 : StabilityChoice) (rb3 : Bool)
    (hnd2 : dofs2.Nodup)
    (hr2 : ∀ d ∈ dofs2, d < ((cell_corners.take
      (isum num_cell_faces num_cells)).foldl max 0 + 1) * 2)
    (hnd3 : dofs3.Nodup)
    (hr3 : ∀ d ∈ dofs3, d < ((face_corners3.take
      (isum num_face_corners3 (isum num_cell_faces3 num_cells3))).foldl
        max 0 + 1) * 3) :
    ret_eq_blen (assemble_mech_system_2D sqrt cbrt points num_cells
        num_cell_faces cell_corners young poisson body_force dofs2 vals2
        num_neumann_faces neumann_faces neumann_forces sc rb2)
      (if rb2 then ((cell_corners.take
          (isum num_cell_faces num_cells)).foldl max 0 + 1) * 2
          - dofs2.length
        else ((cell_corners.take
          (isum num_cell_faces num_cells)).foldl max 0 + 1) * 2)
    ∧ ret_eq_blen (assemble_mech_system_3D sqrt cbrt points3 num_cells3
        num_cell_faces3 num_face_corners3 face_corners3 young3 poisson3
        body_force3 dofs3 vals3 num_neumann_faces3 neumann_faces3
        neumann_forces3 sc3 rb3)
      (if rb3 then ((face_corners3.take
          (isum num_face_corners3 (isum num_cell_faces3
            num_cells3))).foldl max 0 + 1) * 3 - dofs3.length
        else ((face_corners3.take
          (isum num_face_corners3 (isum num_cell_faces3
            num_cells3))).foldl max 0 + 1) * 3) := by
  constructor
  · simp only [assemble_mech_system_2D]
    apply ret_eq_blen_map
    intro p hp
    refine bc_dispatch_blen _ _ _ _ _ _ ?_ hnd2 hr2 p hp
    exact (foldl_length_invariant _ (fun a f => by
        simp only [addAt_length]) _ _).trans
      ((foldl_length_invariant _ (fun a c => by
        exact foldl_length_invariant _ (fun a2 i => addAt_length _ _ _)
          _ _) _ _).trans
        (List.length_replicate _ _))
  · simp only [assemble_mech_system_3D]
    apply ret_eq_blen_bind
    intro st hst
    apply ret_eq_blen_map
    intro p hp
    refine bc_dispatch_blen _ _ _ _ _ _ ?_ hnd3 hr3 p hp
    rw [compute_applied_forces_3D_length]
    have hst2 := foldlM_b_length _ ?_ _ _ st hst
    · rw [hst2]
      exact List.length_replicate _ _
    · intro s a r hr
      rcases hasm : assemble_stiffness_matrix_3D sqrt cbrt points3
          (face_corners3.drop (isum num_face_corners3
            (isum num_cell_faces3 a)))
          (num_face_corners3.drop (isum num_cell_faces3 a))
          (gn num_cell_faces3 a) (gq young3 a) (gq poisson3 a) sc3
          with e | res
      · rw [hasm] at hr
        exact absurd hr (by simp [Except.map])
      · rw [hasm] at hr
        injection hr with hr1
        rw [← hr1]
        exact compute_bodyforce_3D_length _ _ _ _ _ _ _ _

set_option maxRecDepth 10000 in
theorem C10_return_value_witness :
    (([0, 1] : List ℕ).Nodup
      ∧ (∀ d ∈ ([0, 1] : List ℕ),
          d < ((([0, 1, 2, 3] : List ℕ).take (isum [4] 1)).foldl max 0 + 1)
            * 2)
      ∧ (∀ d ∈ ([0] : List ℕ),
          d < ((brickFaceCorners.take (isum brickNumFaceCorners
            (isum [6] 1))).foldl max 0 + 1) * 3))
    ∧ ret_eq_blen (assemble_mech_system_2D sqrtW cbrtW rectPoints 1 [4]
        [0, 1, 2, 3] [1] [0] [0, 0, 0, 0, 0, 0, 0, 0] [0, 1] [0, 0] 0 [] []
        StabilityChoice.SIMPLE true)
      (if true then ((([0, 1, 2, 3] : List ℕ).take (isum [4] 1)).foldl
          max 0 + 1) * 2 - ([0, 1] : List ℕ).length
        else ((([0, 1, 2, 3] : List ℕ).take (isum [4] 1)).foldl
          max 0 + 1) * 2)
    ∧ ret_eq_blen (assemble_mech_system_3D sqrtW cbrtW brickPoints 1 [6]
        brickNumFaceCorners brickFaceCorners [1] [0] [0, 0, 0] [0] [0] 0
        [] [] StabilityChoice.SIMPLE false)
      (if false then ((brickFaceCorners.take (isum brickNumFaceCorners
          (isum [6] 1))).foldl max 0 + 1) * 3 - ([0] : List ℕ).length
        else ((brickFaceCorners.take (isum brickNumFaceCorners
          (isum [6] 1))).foldl max 0 + 1) * 3) := by
  refine ⟨⟨by decide, by decide, by decide⟩, ?_, ?_⟩
  · exact (C10_return_value sqrtW cbrtW rectPoints 1 [4] [0, 1, 2, 3] [1]
      [0] [0, 0, 0, 0, 0, 0, 0, 0] [0, 1] [0, 0] 0 [] []
      StabilityChoice.SIMPLE true brickPoints 1 [6] brickNumFaceCorners
      brickFaceCorners [1] [0] [0, 0, 0] [0] [0] 0 [] []
      StabilityChoice.SIMPLE false (by decide) (by decide) (by decide)
      (by decide)).1
  · exact (C10_return_value sqrtW cbrtW rectPoints 1 [4] [0, 1, 2, 3] [1]
      [0] [0, 0, 0, 0, 0, 0, 0, 0] [0, 1] [0, 0] 0 [] []
      StabilityChoice.SIMPLE true brickPoints 1 [6] brickNumFaceCorners
      brickFaceCorners [1] [0] [0, 0, 0] [0] [0] 0 [] []
      StabilityChoice.SIMPLE false (by decide) (by decide) (by decide)
      (by decide)).2

end

end vem
